import Mathlib

/-!
Verification of the gpzu-bot document-extraction and geometric-resolution core.

The Python source delegates planar geometry to the shapely library.  We model
that library as an abstract `GeomKernel`: a record of total operations
(polygon construction, validity, zero-buffer repair, emptiness, centroid,
point containment, intersection, area, union, boolean intersection test).
Every resolver/matcher function below is a line-by-line translation of the
corresponding Python function, parameterised by such a kernel; floating-point
numbers are modelled by rationals.  A concrete instance (axis-aligned boxes)
is provided at the end so that every theorem with hypotheses can be
instantiated on concrete inputs.
-/

/-! ## Character-list string primitives

The Python string operations used by the parsers (strip, lower/upper,
endswith, single-character replace) are modelled on the character list
underlying `String`, so that they evaluate by kernel reduction on concrete
inputs.  Case mapping is ASCII (faithful for every name the claims touch). -/

/-- ASCII lower-casing of one character (Python `str.lower` on ASCII). -/
def lowerChar (c : Char) : Char :=
  if 'A' ≤ c ∧ c ≤ 'Z' then Char.ofNat (c.toNat + 32) else c

/-- ASCII upper-casing of one character (Python `str.upper` on ASCII). -/
def upperChar (c : Char) : Char :=
  if 'a' ≤ c ∧ c ≤ 'z' then Char.ofNat (c.toNat - 32) else c

/-- ASCII `str.lower`. -/
def sLower (s : String) : String := ⟨s.data.map lowerChar⟩

/-- ASCII `str.upper`. -/
def sUpper (s : String) : String := ⟨s.data.map upperChar⟩

/-- Leading/trailing-whitespace removal on a character list. -/
def trimList (l : List Char) : List Char :=
  ((l.dropWhile Char.isWhitespace).reverse.dropWhile Char.isWhitespace).reverse

/-- Python `str.strip()` / lxml text stripping. -/
def sTrim (s : String) : String := ⟨trimList s.data⟩

/-- Python `str.endswith`. -/
def sEndsWith (s suffix : String) : Bool :=
  decide (List.IsSuffix suffix.data s.data)

/-- Python `str.replace(src, tgt)` for a one-character pattern (the only
shape `_to_float` uses: blanks removed, comma to dot). -/
def replace1 (src : Char) (tgt : List Char) (l : List Char) : List Char :=
  l.flatMap (fun c => if c = src then tgt else [c])

/-- A planar point, `(x, y)`, modelling a Python float pair. -/
abbrev Pt : Type := ℚ × ℚ

/-- Abstract interface of the planar-geometry library (shapely).  All
operations are total; exceptions of the underlying library are outside the
model.  `area` of an intersection models `shapely .area` (a float). -/
structure GeomKernel (S : Type) where
  mkPolygon : List Pt → S
  isValid : S → Bool
  buffer0 : S → S
  isEmpty : S → Bool
  centroid : S → Pt
  containsPt : S → Pt → Bool
  intersection : S → S → S
  area : S → ℚ
  unionAll : List S → S
  intersects : S → S → Bool

/-! ## utils/spatial.py -/

/-- `Parcel` from utils/spatial.py: the parcel contour in XML order. -/
structure Parcel where
  contour : List Pt

/-- `ZoneShape` from utils/spatial.py: a zone name with its contours. -/
structure ZoneShape where
  name : String
  contours : List (List Pt)

/-- `_make_polygon` from utils/spatial.py: reject contours with fewer than 3
listed points, build, repair once with a zero buffer when invalid, and reject
when still invalid. -/
def make_polygon {S : Type} (G : GeomKernel S) (contour : List Pt) : Option S :=
  if contour.length < 3 then none
  else
    let poly := G.mkPolygon contour
    let poly2 := if G.isValid poly then poly else G.buffer0 poly
    if G.isValid poly2 then some poly2 else none

/-- `_zone_to_polygon` from utils/spatial.py: build every contour, keep the
non-empty successes, return a single polygon or the union of several. -/
def zone_to_polygon {S : Type} (G : GeomKernel S) (z : ZoneShape) : Option S :=
  let polys := z.contours.filterMap (fun cont =>
    match make_polygon G cont with
    | none => none
    | some p => if G.isEmpty p then none else some p)
  match polys with
  | [] => none
  | [p] => some p
  | ps => some (G.unionAll ps)

/-- The intersection-area expression of `determine_zone`:
`inter.area if not inter.is_empty else 0.0` with `inter = zpoly.intersection(ppoly)`. -/
def inter_area_d {S : Type} (G : GeomKernel S) (pp g : S) : ℚ :=
  let inter := G.intersection g pp
  if G.isEmpty inter then 0 else G.area inter

/-- The loop of `determine_zone` (utils/spatial.py, lines 52-69), with the
running state `best_name`/`best_area` made explicit. -/
def zone_scan {S : Type} (G : GeomKernel S) (pp : S) (c : Pt) :
    List ZoneShape → Option String → ℚ → Option String
  | [], best, bestArea => if 0 < bestArea then best else none
  | z :: rest, best, bestArea =>
    match zone_to_polygon G z with
    | none => zone_scan G pp c rest best bestArea
    | some g =>
      if G.isEmpty g then zone_scan G pp c rest best bestArea
      else if G.containsPt g c then some z.name
      else
        let area := inter_area_d G pp g
        if bestArea < area then zone_scan G pp c rest (some z.name) area
        else zone_scan G pp c rest best bestArea

/-- `determine_zone` from utils/spatial.py. -/
def determine_zone {S : Type} (G : GeomKernel S) (parcel : Parcel)
    (zones : List ZoneShape) : Option String :=
  match make_polygon G parcel.contour with
  | none => none
  | some pp =>
    if G.isEmpty pp then none
    else zone_scan G pp (G.centroid pp) zones none 0

/-! ## parsers/tab_parser.py -/

/-- One entry of the zone list produced by `parse_zones_layer`:
`{"name": ..., "code": ..., "geometry": ...}`.  `geometry = none` models a
missing/None geometry; an empty geometry is falsy in the source and is
modelled through `GeomKernel.isEmpty`. -/
structure ZoneRec (S : Type) where
  name : String
  code : String
  geometry : Option S

/-- The parcel-polygon construction shared by the tab_parser functions:
`Polygon(parcel_coords)` followed by `buffer(0)` when invalid (no validity
re-check, no rejection). -/
def parcel_poly_of {S : Type} (G : GeomKernel S) (coords : List Pt) : S :=
  let raw := G.mkPolygon coords
  if G.isValid raw then raw else G.buffer0 raw

/-- Step-1 test of `find_zone_for_parcel`:
`zone_geom and zone_geom.contains(centroid)` (shapely truthiness is
non-emptiness). -/
def zone_rec_hits {S : Type} (G : GeomKernel S) (c : Pt) (r : ZoneRec S) : Bool :=
  match r.geometry with
  | none => false
  | some g => !G.isEmpty g && G.containsPt g c

/-- Step-2 loop of `find_zone_for_parcel` (tab_parser.py, lines 186-217), with
the `best_zone`/`max_area` state explicit. -/
def zone_rec_scan {S : Type} (G : GeomKernel S) (pp : S) :
    List (ZoneRec S) → Option (ZoneRec S) → ℚ → Option (String × String)
  | [], best, maxArea =>
    match best with
    | none => none
    | some z => if 0 < maxArea then some (z.name, z.code) else none
  | r :: rest, best, maxArea =>
    match r.geometry with
    | none => zone_rec_scan G pp rest best maxArea
    | some g =>
      if G.isEmpty g then zone_rec_scan G pp rest best maxArea
      else
        let area := G.area (G.intersection pp g)
        if maxArea < area then zone_rec_scan G pp rest (some r) area
        else zone_rec_scan G pp rest best maxArea

/-- `find_zone_for_parcel` from parsers/tab_parser.py: empty-input guard,
centroid phase (first zone containing the centroid), then maximal
intersection-area phase. -/
def find_zone_for_parcel {S : Type} (G : GeomKernel S) (coords : List Pt)
    (zones : List (ZoneRec S)) : Option (String × String) :=
  if coords.isEmpty || zones.isEmpty then none
  else
    let pp := parcel_poly_of G coords
    let c := G.centroid pp
    match zones.find? (zone_rec_hits G c) with
    | some z => some (z.name, z.code)
    | none => zone_rec_scan G pp zones none 0

/-- `get_field_value` from parsers/tab_parser.py over a row modelled as an
ordered label/value list (a value of `none` models a Python `None` cell).
Exact label membership is tried first, then a case-insensitive scan; the
first present label's value is returned immediately. -/
def get_field_value (row : List (String × Option String)) :
    List String → Option String
  | [] => none
  | v :: rest =>
    match row.find? (fun col => col.1 == v) with
    | some col => col.2.map sTrim
    | none =>
      match row.find? (fun col => sUpper col.1 == sUpper v) with
      | some col => col.2.map sTrim
      | none => get_field_value row rest

/-- A restriction record as built by `parse_restrictions_layer` /
`parse_zouit_layer_extended`.  Each attribute field is
`Option (Option String)`: the outer layer models dictionary-key presence
(`.get(key, "")` yields `""` when the key is absent), the inner layer models a
Python `None` value. -/
structure RestrRec (S : Type) where
  zone_type : Option (Option String)
  name : Option (Option String)
  registry_number : Option (Option String)
  decision_number : Option (Option String)
  decision_date : Option (Option String)
  decision_authority : Option (Option String)
  geometry : Option S

/-- The value of `d.get(key, "")` for a field of a record dictionary. -/
def dict_get (f : Option (Option String)) : Option String :=
  match f with
  | none => some ""
  | some v => v

/-- The output dictionary appended by `find_restrictions_for_parcel`. -/
structure RestrOut where
  zone_type : Option String
  name : Option String
  registry_number : Option String
  decision_number : Option String
  decision_date : Option String
  decision_authority : Option String
deriving DecidableEq, Repr

/-- The projection `find_restrictions_for_parcel` applies to a matched record. -/
def restr_out {S : Type} (r : RestrRec S) : RestrOut :=
  ⟨dict_get r.zone_type, dict_get r.name, dict_get r.registry_number,
   dict_get r.decision_number, dict_get r.decision_date,
   dict_get r.decision_authority⟩

/-- `find_restrictions_for_parcel` from parsers/tab_parser.py:
`check_geometry_intersects` is the kernel's boolean `intersects`; records with
missing or empty geometry are skipped; matches are appended in input order. -/
def find_restrictions_for_parcel {S : Type} (G : GeomKernel S) (coords : List Pt)
    (restrictions : List (RestrRec S)) : List RestrOut :=
  if coords.isEmpty || restrictions.isEmpty then []
  else
    let pp := parcel_poly_of G coords
    restrictions.filterMap (fun r =>
      match r.geometry with
      | none => none
      | some g =>
        if G.isEmpty g then none
        else if G.intersects pp g then some (restr_out r) else none)

/-- A capital-object record as built by `parse_capital_objects_layer`. -/
structure ObjRec (S : Type) where
  cadnum : Option (Option String)
  object_type : Option (Option String)
  purpose : Option (Option String)
  area : Option (Option String)
  floors : Option (Option String)
  geometry : Option S

/-- The output dictionary appended by `find_objects_on_parcel`. -/
structure ObjOut where
  cadnum : Option String
  object_type : Option String
  purpose : Option String
  area : Option String
  floors : Option String
deriving DecidableEq, Repr

/-- The projection `find_objects_on_parcel` applies to a matched object. -/
def obj_out {S : Type} (r : ObjRec S) : ObjOut :=
  ⟨dict_get r.cadnum, dict_get r.object_type, dict_get r.purpose,
   dict_get r.area, dict_get r.floors⟩

/-- `find_objects_on_parcel` from parsers/tab_parser.py. -/
def find_objects_on_parcel {S : Type} (G : GeomKernel S) (coords : List Pt)
    (objects : List (ObjRec S)) : List ObjOut :=
  if coords.isEmpty || objects.isEmpty then []
  else
    let pp := parcel_poly_of G coords
    objects.filterMap (fun r =>
      match r.geometry with
      | none => none
      | some g =>
        if G.isEmpty g then none
        else if G.intersects pp g then some (obj_out r) else none)

/-! ## parsers/egrn_parser.py and parsers/kpt_parser.py: container resolution -/

/-- One ZIP member: `name` and `file_size` from the central directory, and
`doc` the sanitized XML payload when `_read_zip_member` plus the
`etree.fromstring` sanity parse succeed (`none` when reading, decompressing,
sanitizing or parsing fails). -/
structure ZipMember where
  name : String
  size : ℕ
  doc : Option String
deriving DecidableEq, Repr

/-- Case-insensitive substring test used to model `re.search` of the literal
keyword alternations (ASCII case folding; the names in all claims are ASCII). -/
def name_has_token (n : String) (token : String) : Bool :=
  decide (List.IsInfix token.data (sLower n).data)

/-- The priority-name test of egrn_parser.py:
`re.compile(r"(land|parcel|record|выпис|egrn)", re.I)`. -/
def egrn_prior_name (n : String) : Bool :=
  ["land", "parcel", "record", "выпис", "egrn"].any (name_has_token n)

/-- The priority-name test of kpt_parser.py:
`re.compile(r"(zone|territor|зон|territorial|zones_and_territories)", re.I)`. -/
def kpt_prior_name (n : String) : Bool :=
  ["zone", "territor", "зон", "territorial", "zones_and_territories"].any (name_has_token n)

/-- Member filtering shared by both pickers: drop directories, keep names
ending in `.xml` or `.xml.gz` (lower-cased). -/
def xml_like_members (ms : List ZipMember) : List ZipMember :=
  (ms.filter (fun m => !(sEndsWith m.name "/"))).filter
    (fun m => sEndsWith (sLower m.name) ".xml" || sEndsWith (sLower m.name) ".xml.gz")

/-- Insert a member into a size-descending list, after all members of equal
or larger size (stability of Python `sorted`). -/
def insert_size_desc (m : ZipMember) : List ZipMember → List ZipMember
  | [] => [m]
  | x :: xs => if m.size ≤ x.size then x :: insert_size_desc m xs else m :: x :: xs

/-- `sorted(xml_like, key=lambda n: file_size, reverse=True)`: the stable
descending sort by member size. -/
def size_desc_sort (l : List ZipMember) : List ZipMember :=
  l.foldl (fun acc m => insert_size_desc m acc) []

/-- The candidate loop of both pickers: return the first member that reads
and parses; when none does, the picker raises (modelled as `none`). -/
def first_readable : List ZipMember → Option String
  | [] => none
  | m :: rest =>
    match m.doc with
    | some d => some d
    | none => first_readable rest

/-- The shared shape of `_pick_xml_from_zip` (egrn_parser.py, lines 65-84) and
the ZIP branch of `_ensure_xml_bytes` (kpt_parser.py, lines 51-71),
parameterised by the priority-name test (the only difference between them). -/
def pick_xml_core (prior : String → Bool) (ms : List ZipMember) : Option String :=
  let xmlLike := xml_like_members ms
  if xmlLike.isEmpty then none
  else
    let pri := xmlLike.filter (fun m => prior m.name)
    let candidates := if !pri.isEmpty then pri else size_desc_sort xmlLike
    first_readable candidates

/-- `_pick_xml_from_zip` from parsers/egrn_parser.py. -/
def pick_xml_from_zip (ms : List ZipMember) : Option String :=
  pick_xml_core egrn_prior_name ms

/-- The ZIP member selection of `_ensure_xml_bytes` from parsers/kpt_parser.py. -/
def kpt_pick_xml (ms : List ZipMember) : Option String :=
  pick_xml_core kpt_prior_name ms

/-! ## `_first_text` (identical in egrn_parser.py and kpt_parser.py) -/

/-- `_first_text`: scan the candidate queries in order; for each, evaluate it
(`ev root xp`, modelling `root.xpath(xp)`); when the result list is non-empty,
take its first entry, strip it, and return it when non-empty; otherwise move
to the next candidate; return `none` when all candidates are exhausted. -/
def first_text {α β : Type} (ev : α → β → List String) (root : α) :
    List β → Option String
  | [] => none
  | xp :: rest =>
    match ev root xp with
    | [] => first_text ev root rest
    | v :: _ => if sTrim v = "" then first_text ev root rest else some (sTrim v)

/-! ## XML documents

lxml element trees are modelled by `XTree`: an element has a local name, an
attribute list, its direct text content, and a child list.  Mixed content
(several text nodes interleaved with children) is not modelled; a query
`.../text()` on an element yields its `ownText` when non-empty. -/

inductive XTree where
  | node (tag : String) (attrs : List (String × String)) (ownText : String)
      (children : List XTree)

/-- The element's local name. -/
def XTree.tag : XTree → String
  | .node t _ _ _ => t

/-- The element's attribute list. -/
def XTree.attrs : XTree → List (String × String)
  | .node _ a _ _ => a

/-- The element's direct text content. -/
def XTree.ownText : XTree → String
  | .node _ _ tx _ => tx

/-- The element's children. -/
def XTree.children : XTree → List XTree
  | .node _ _ _ cs => cs

/-- `el.get(key)` of lxml: the attribute value, `none` when absent. -/
def getAttr (t : XTree) (k : String) : Option String :=
  (t.attrs.find? (fun p => p.1 == k)).map (·.2)

/-- The text nodes of an element (empty text yields no text node). -/
def textNodes (t : XTree) : List String :=
  if t.ownText = "" then [] else [t.ownText]

/-- The children of `t` whose local name is `nm` (one xpath child step). -/
def childrenNamed (t : XTree) (nm : String) : List XTree :=
  t.children.filter (fun c => c.tag == nm)

/-- A chain of xpath child steps from one element, in document order. -/
def chainElems (t : XTree) (path : List String) : List XTree :=
  path.foldl (fun acc nm => acc.flatMap (fun e => childrenNamed e nm)) [t]

/-- A chain of xpath child steps ending in `text()`. -/
def chainTexts (t : XTree) (path : List String) : List String :=
  (chainElems t path).flatMap textNodes

/-- The texts of the children selected by a predicate on the local name
(the `./*[...]/text()` queries on ordinate elements). -/
def childTexts (t : XTree) (p : String → Bool) : List String :=
  (t.children.filter (fun c => p c.tag)).flatMap textNodes

mutual
/-- Descendant-or-self elements in document order (the `//*` axis). -/
def descendants : XTree → List XTree
  | .node tg a tx cs => .node tg a tx cs :: descendantsList cs
/-- Descendant-or-self elements of a forest in document order. -/
def descendantsList : List XTree → List XTree
  | [] => []
  | c :: cs => descendants c ++ descendantsList cs
end

/-- Strict descendants (the `//` step between two named elements). -/
def descendantsStrict (t : XTree) : List XTree :=
  descendantsList t.children

/-- Descendant-or-self elements named `nm` (`//*[local-name()='nm']`). -/
def descendantsNamed (t : XTree) (nm : String) : List XTree :=
  (descendants t).filter (fun e => e.tag == nm)

/-- `translate(local-name(),'XY','xy')`: lower only the letters X and Y. -/
def translateXY (s : String) : String :=
  ⟨s.data.map (fun c => if c == 'X' then 'x' else if c == 'Y' then 'y' else c)⟩

/-- Python `a or b or ... or ""` over attribute lookups: the first non-empty
string, else the empty string. -/
def pyOr : List (Option String) → String
  | [] => ""
  | v :: rest =>
    match v with
    | some s => if s = "" then pyOr rest else s
    | none => pyOr rest

/-! ## parsers/egrn_parser.py: coordinate extraction -/

/-- `Coord` from parsers/egrn_parser.py (all three fields kept as strings). -/
structure Coord where
  num : String
  x : String
  y : String
deriving DecidableEq, Repr

/-- The per-ordinate body of `_coords_from_ordinates` (egrn_parser.py,
lines 204-220): child elements `x`/`y`/`ord_nmb` (case-insensitive), then the
`X`/`x`, `Y`/`y`, `Num`/`num` attributes, then the empty string; the ordinate
is kept when any of the three parts is non-empty. -/
def coordOfOrdinate (o : XTree) : Option Coord :=
  let x0 := first_text childTexts o [fun t => translateXY t == "x"]
  let y0 := first_text childTexts o [fun t => translateXY t == "y"]
  let n0 := first_text childTexts o [fun t => sLower t == "ord_nmb"]
  let x := match x0 with
    | some v => v
    | none => sTrim (pyOr [getAttr o "X", getAttr o "x"])
  let y := match y0 with
    | some v => v
    | none => sTrim (pyOr [getAttr o "Y", getAttr o "y"])
  let num := match n0 with
    | some v => v
    | none => sTrim (pyOr [getAttr o "Num", getAttr o "num"])
  if x ≠ "" ∨ y ≠ "" ∨ num ≠ "" then some ⟨num, x, y⟩ else none

/-- `_coords_from_ordinates` from parsers/egrn_parser.py. -/
def coords_from_ordinates (nodes : List XTree) : List Coord :=
  nodes.filterMap coordOfOrdinate

/-- The child-step path below a `contour` element shared by the coordinate
xpaths of egrn_parser.py. -/
def contourOrdinatePath : List String :=
  ["entity_spatial", "spatials_elements", "spatial_element", "ordinates", "ordinate"]

/-- The attribute-only ordinate handling of the legacy branch of
`_extract_coords` (egrn_parser.py, lines 257-269). -/
def coordOfOldOrdinate (o : XTree) : Option Coord :=
  let num := sTrim (pyOr [getAttr o "Num", getAttr o "num"])
  let x := sTrim (pyOr [getAttr o "X", getAttr o "x"])
  let y := sTrim (pyOr [getAttr o "Y", getAttr o "y"])
  if x ≠ "" ∨ y ≠ "" ∨ num ≠ "" then some ⟨num, x, y⟩ else none

/-- `_extract_coords` from parsers/egrn_parser.py: the main
`contours_location` subtree first, then `object_parts`, then the legacy
`EntitySpatial//SpelementUnit//Ordinate` attribute format. -/
def extract_coords (root : XTree) : List Coord :=
  let ordsMain := (descendantsNamed root "contours_location").flatMap
    (fun n => chainElems n (["contours", "contour"] ++ contourOrdinatePath))
  let coords := coords_from_ordinates ordsMain
  if coords ≠ [] then coords
  else
    let ordsParts := (descendantsNamed root "object_parts").flatMap
      (fun n => chainElems n (["object_part", "contours", "contour"] ++ contourOrdinatePath))
    let coords2 := coords_from_ordinates ordsParts
    if coords2 ≠ [] then coords2
    else
      let ordsOld := (descendantsNamed root "EntitySpatial").flatMap
        (fun n => ((descendantsStrict n).filter (fun e => e.tag == "SpelementUnit")).flatMap
          (fun u => (descendantsStrict u).filter (fun e => e.tag == "Ordinate")))
      ordsOld.filterMap coordOfOldOrdinate

/-! ## parsers/kpt_parser.py: zone-record extraction -/

/-- `Zone` from parsers/kpt_parser.py. -/
structure Zone where
  name : String
  code : Option String
  contours : List (List Pt)
deriving DecidableEq, Repr

/-- The natural number denoted by a digit list. -/
def natOfDigits (cs : List Char) : ℕ :=
  cs.foldl (fun acc c => acc * 10 + (c.toNat - 48)) 0

/-- A decimal-literal parser modelling Python `float` on the simple forms
`[+|-] digits [. digits]` that cadastral documents use (exponent and special
forms are outside the model).  The value of `intpart.fracpart` is returned as
the exact rational `(intpart * 10^k + fracpart) / 10^k` with `k` the number
of fractional digits. -/
def parseDecParts (cs : List Char) : Option (ℕ × ℕ) :=
  let intPart := cs.takeWhile (·.isDigit)
  let rest := cs.dropWhile (·.isDigit)
  match rest with
  | [] => if intPart.isEmpty then none else some (natOfDigits intPart, 1)
  | '.' :: frac =>
    if frac.all (·.isDigit) ∧ (intPart ≠ [] ∨ frac ≠ []) then
      some (natOfDigits intPart * 10 ^ frac.length + natOfDigits frac, 10 ^ frac.length)
    else none
  | _ => none

/-- Signed decimal parsing (Python `float(t)` on the modelled forms). -/
def parseDecimal (s : String) : Option ℚ :=
  match s.toList with
  | '-' :: cs => (parseDecParts cs).map (fun p => mkRat (-(p.1 : ℤ)) p.2)
  | '+' :: cs => (parseDecParts cs).map (fun p => mkRat p.1 p.2)
  | cs => (parseDecParts cs).map (fun p => mkRat p.1 p.2)

/-- `_to_float` from parsers/kpt_parser.py: strip, drop blanks, comma to dot,
then parse; empty or unparsable text yields `none`. -/
def to_float (s : String) : Option ℚ :=
  let t : String := ⟨replace1 ',' ['.'] (replace1 ' ' [] (trimList s.data))⟩
  if t = "" then none else parseDecimal t

/-- The adjacent-duplicate removal of `_ordinates_to_polygon`. -/
def dedupAdjacentFrom (lastp : Pt) : List Pt → List Pt
  | [] => []
  | p :: rest =>
    if p = lastp then dedupAdjacentFrom lastp rest else p :: dedupAdjacentFrom p rest

/-- Remove consecutive duplicate points, keeping first occurrences. -/
def dedupAdjacent : List Pt → List Pt
  | [] => []
  | p :: rest => p :: dedupAdjacentFrom p rest

/-- The closing step of `_ordinates_to_polygon`: append the first point when
the ring is not already closed. -/
def closeRing (l : List Pt) : List Pt :=
  match l.head?, l.getLast? with
  | some h, some t => if h = t then l else l ++ [h]
  | _, _ => l

/-- The per-ordinate coordinate parsing of `_ordinates_to_polygon`
(kpt_parser.py, lines 122-134): child `x`/`y` text first, then the `X`/`x`,
`Y`/`y` attributes, each fed through `_to_float`; the point is dropped when
either coordinate fails to parse. -/
def ptOfOrdinate (o : XTree) : Option Pt :=
  let xs := match first_text childTexts o [fun t => translateXY t == "x"] with
    | some v => v
    | none => pyOr [getAttr o "X", getAttr o "x"]
  let ys := match first_text childTexts o [fun t => translateXY t == "y"] with
    | some v => v
    | none => pyOr [getAttr o "Y", getAttr o "y"]
  match to_float xs, to_float ys with
  | some x, some y => some (x, y)
  | _, _ => none

/-- `_ordinates_to_polygon` from parsers/kpt_parser.py. -/
def ordinates_to_polygon (ords : List XTree) : List Pt :=
  closeRing (dedupAdjacent (ords.filterMap ptOfOrdinate))

/-- `_extract_polygons_under` from parsers/kpt_parser.py (lines 151-168): one
contour per `spatial_element`, kept only when the closed ring has at least 4
points. -/
def extract_polygons_under (node : XTree) : List (List Pt) :=
  (chainElems node ["entity_spatial", "spatials_elements", "spatial_element"]).filterMap
    (fun se =>
      let poly := ordinates_to_polygon (chainElems se ["ordinates", "ordinate"])
      if 4 ≤ poly.length then some poly else none)

/-- The per-record body of `_parse_from_zones_and_territories`
(kpt_parser.py, lines 185-203): name and code from the `b_object` fields,
geometry from `b_boundaries/b_contours_location`, record kept only when at
least one contour was collected. -/
def parseZTRecord (rec : XTree) : Option Zone :=
  let name := (first_text chainTexts rec
    [["b_object_zones_and_territories", "b_object", "zone_name"],
     ["b_object_zones_and_territories", "b_object", "name"]]).getD ""
  let code := first_text chainTexts rec
    [["b_object_zones_and_territories", "b_object", "zone_code"],
     ["b_object_zones_and_territories", "b_object", "code"]]
  let contours := (chainElems rec
    ["b_object_zones_and_territories", "b_boundaries", "b_contours_location"]).flatMap
    extract_polygons_under
  if contours ≠ [] then some ⟨name, code, contours⟩ else none

/-- `_parse_from_zones_and_territories` from parsers/kpt_parser.py. -/
def parse_from_zones_and_territories (root : XTree) : List Zone :=
  let recs :=
    if root.tag == "extract_cadastral_plan_territory" then
      chainElems root
        ["zones_and_territories", "zones_and_territories_records", "zones_and_territories_record"]
    else []
  recs.filterMap parseZTRecord

/-- The per-record body of `_parse_from_territorial_zones`
(kpt_parser.py, lines 221-231). -/
def parseTZRecord (z : XTree) : Option Zone :=
  let name := (first_text chainTexts z [["zone_name"], ["name"]]).getD ""
  let code := first_text chainTexts z [["zone_code"], ["code"]]
  let contours := (childrenNamed z "contours_location").flatMap extract_polygons_under
  if contours ≠ [] then some ⟨name, code, contours⟩ else none

/-- `_parse_from_territorial_zones` from parsers/kpt_parser.py. -/
def parse_from_territorial_zones (root : XTree) : List Zone :=
  let recs :=
    if root.tag == "extract_cadastral_plan_territory" then
      chainElems root ["zones_and_territories", "territorial_zones", "territorial_zone"]
    else []
  recs.filterMap parseTZRecord

/-! ## Concrete geometry instances

`Box` is a simple axis-aligned-box geometry satisfying the kernel interface;
it is used to instantiate the theorems below on concrete inputs.  `K8` is a
second instance whose zero-buffer repair returns an empty (hence valid)
shape, mirroring the shapely contract that `buffer(0)` output is valid. -/

structure Box where
  lo : Pt
  hi : Pt
deriving DecidableEq, Repr

/-- Exact rational addition computed through `mkRat` (definitionally
reduction-friendly, equal to `a + b`). -/
def qadd (a b : ℚ) : ℚ := mkRat (a.num * b.den + b.num * a.den) (a.den * b.den)

/-- Exact rational subtraction computed through `mkRat`. -/
def qsub (a b : ℚ) : ℚ := mkRat (a.num * b.den - b.num * a.den) (a.den * b.den)

/-- Exact rational multiplication computed through `mkRat`. -/
def qmul (a b : ℚ) : ℚ := mkRat (a.num * b.num) (a.den * b.den)

/-- Exact rational halving computed through `mkRat`. -/
def qhalf (a : ℚ) : ℚ := mkRat a.num (2 * a.den)

theorem qadd_eq (a b : ℚ) : qadd a b = a + b := by
  have ha : ((a.den : ℚ)) ≠ 0 := Nat.cast_ne_zero.mpr (Rat.den_pos a).ne'
  have hb : ((b.den : ℚ)) ≠ 0 := Nat.cast_ne_zero.mpr (Rat.den_pos b).ne'
  unfold qadd
  rw [Rat.mkRat_eq_div]
  conv_rhs => rw [← Rat.num_div_den a, ← Rat.num_div_den b]
  push_cast
  field_simp

theorem qsub_eq (a b : ℚ) : qsub a b = a - b := by
  have ha : ((a.den : ℚ)) ≠ 0 := Nat.cast_ne_zero.mpr (Rat.den_pos a).ne'
  have hb : ((b.den : ℚ)) ≠ 0 := Nat.cast_ne_zero.mpr (Rat.den_pos b).ne'
  unfold qsub
  rw [Rat.mkRat_eq_div]
  conv_rhs => rw [← Rat.num_div_den a, ← Rat.num_div_den b]
  push_cast
  field_simp
  ring

theorem qmul_eq (a b : ℚ) : qmul a b = a * b := by
  have ha : ((a.den : ℚ)) ≠ 0 := Nat.cast_ne_zero.mpr (Rat.den_pos a).ne'
  have hb : ((b.den : ℚ)) ≠ 0 := Nat.cast_ne_zero.mpr (Rat.den_pos b).ne'
  unfold qmul
  rw [Rat.mkRat_eq_div]
  conv_rhs => rw [← Rat.num_div_den a, ← Rat.num_div_den b]
  push_cast
  field_simp

theorem qhalf_eq (a : ℚ) : qhalf a = a / 2 := by
  have ha : ((a.den : ℚ)) ≠ 0 := Nat.cast_ne_zero.mpr (Rat.den_pos a).ne'
  unfold qhalf
  rw [Rat.mkRat_eq_div]
  conv_rhs => rw [← Rat.num_div_den a]
  push_cast
  field_simp
  exact Or.inl (mul_comm _ _)

def boxEmpty (b : Box) : Bool :=
  decide (b.hi.1 < b.lo.1 ∨ b.hi.2 < b.lo.2)

def boxInter (a b : Box) : Box :=
  ⟨(max a.lo.1 b.lo.1, max a.lo.2 b.lo.2), (min a.hi.1 b.hi.1, min a.hi.2 b.hi.2)⟩

def boxArea (b : Box) : ℚ :=
  if boxEmpty b then 0 else qmul (qsub b.hi.1 b.lo.1) (qsub b.hi.2 b.lo.2)

def boxHull (a b : Box) : Box :=
  ⟨(min a.lo.1 b.lo.1, min a.lo.2 b.lo.2), (max a.hi.1 b.hi.1, max a.hi.2 b.hi.2)⟩

def emptyBox : Box := ⟨(0, 0), (-1, -1)⟩

def mkBox (pts : List Pt) : Box :=
  match pts with
  | [] => emptyBox
  | p :: rest => rest.foldl
      (fun acc q => ⟨(min acc.lo.1 q.1, min acc.lo.2 q.2), (max acc.hi.1 q.1, max acc.hi.2 q.2)⟩)
      ⟨p, p⟩

def boxContains (b : Box) (p : Pt) : Bool :=
  decide (b.lo.1 < p.1 ∧ p.1 < b.hi.1 ∧ b.lo.2 < p.2 ∧ p.2 < b.hi.2)

def boxCentroid (b : Box) : Pt :=
  (qhalf (qadd b.lo.1 b.hi.1), qhalf (qadd b.lo.2 b.hi.2))

def boxIntersects (a b : Box) : Bool :=
  decide (max a.lo.1 b.lo.1 ≤ min a.hi.1 b.hi.1 ∧ max a.lo.2 b.lo.2 ≤ min a.hi.2 b.hi.2)

/-- The axis-aligned-box geometry kernel. -/
def K0 : GeomKernel Box :=
  { mkPolygon := mkBox, isValid := fun _ => true, buffer0 := id,
    isEmpty := boxEmpty, centroid := boxCentroid, containsPt := boxContains,
    intersection := boxInter, area := boxArea,
    unionAll := fun l => l.foldl boxHull emptyBox, intersects := boxIntersects }

theorem K0_area_of_empty : ∀ s, K0.isEmpty s = true → K0.area s = 0 := by
  intro s h
  simp only [K0] at h ⊢
  simp [boxArea, h]

theorem K0_inter_comm : ∀ a b : Box, boxInter a b = boxInter b a := by
  intro a b
  simp [boxInter, max_comm, min_comm]

theorem K0_area_comm :
    ∀ a b, K0.area (K0.intersection a b) = K0.area (K0.intersection b a) := by
  intro a b
  simp only [K0]
  rw [K0_inter_comm]

theorem K0_empty_not_contains :
    ∀ g p, K0.isEmpty g = true → K0.containsPt g p = false := by
  intro g p h
  simp only [K0] at h ⊢
  simp only [boxEmpty, decide_eq_true_eq] at h
  simp only [boxContains, decide_eq_false_iff_not]
  rintro ⟨h1, h2, h3, h4⟩
  rcases h with h | h
  · exact absurd (lt_trans h1 h2) (lt_asymm h)
  · exact absurd (lt_trans h3 h4) (lt_asymm h)

/-- A "shape" of `K8` is its raw point list; the empty list is the empty
shape.  Validity asks for at least three distinct points (degenerate rings
are invalid) except for the empty shape, which is valid; the zero-buffer
repair collapses a shape to the empty shape, which is valid — exactly the
shapely behaviour on a degenerate (zero-area) ring. -/
def K8 : GeomKernel (List Pt) :=
  { mkPolygon := id,
    isValid := fun l => l.isEmpty || decide (3 ≤ l.dedup.length),
    buffer0 := fun _ => [],
    isEmpty := fun l => l.isEmpty,
    centroid := fun _ => (0, 0),
    containsPt := fun _ _ => false,
    intersection := fun a _ => a,
    area := fun _ => 0,
    unionAll := fun _ => [],
    intersects := fun _ _ => false }

theorem K8_repair_valid : ∀ s, K8.isValid (K8.buffer0 s) = true := by
  intro s
  simp [K8]

/-! ## Derived predicates and scores used to state the resolver claims -/

/-- The full step-1 test of `determine_zone` on one zone: shape built,
non-empty, and containing the centroid. -/
def zone_hit {S : Type} (G : GeomKernel S) (c : Pt) (z : ZoneShape) : Bool :=
  match zone_to_polygon G z with
  | none => false
  | some g => !G.isEmpty g && G.containsPt g c

/-- Claim-level containment: the zone's built shape contains the point
(emptiness not tested; for a geometric kernel an empty shape contains
nothing, so this agrees with `zone_hit`). -/
def zone_containsC {S : Type} (G : GeomKernel S) (c : Pt) (z : ZoneShape) : Bool :=
  match zone_to_polygon G z with
  | none => false
  | some g => G.containsPt g c

/-- Claim-level containment for a layer zone record. -/
def rec_containsC {S : Type} (G : GeomKernel S) (c : Pt) (r : ZoneRec S) : Bool :=
  match r.geometry with
  | none => false
  | some g => G.containsPt g c

/-- The name/area pair `determine_zone`'s loop would score a zone with
(`none` when the zone is skipped). -/
def zone_entry {S : Type} (G : GeomKernel S) (pp : S) (z : ZoneShape) :
    Option (String × ℚ) :=
  match zone_to_polygon G z with
  | none => none
  | some g => if G.isEmpty g then none else some (z.name, inter_area_d G pp g)

/-- The record/area pair `find_zone_for_parcel`'s step 2 would score a record
with (`none` when the record is skipped). -/
def rec_entry {S : Type} (G : GeomKernel S) (pp : S) (r : ZoneRec S) :
    Option (ZoneRec S × ℚ) :=
  match r.geometry with
  | none => none
  | some g => if G.isEmpty g then none else some (r, G.area (G.intersection pp g))

/-- The effective intersection area of a zone in `determine_zone` (zero for a
skipped zone — a skipped zone can never win the area phase). -/
def zone_area_score {S : Type} (G : GeomKernel S) (pp : S) (z : ZoneShape) : ℚ :=
  match zone_to_polygon G z with
  | none => 0
  | some g => if G.isEmpty g then 0 else inter_area_d G pp g

/-- The effective intersection area of a record in `find_zone_for_parcel`. -/
def rec_area_score {S : Type} (G : GeomKernel S) (pp : S) (r : ZoneRec S) : ℚ :=
  match r.geometry with
  | none => 0
  | some g => if G.isEmpty g then 0 else G.area (G.intersection pp g)

/-- The bare best-so-far scan over payload/area pairs, common to the area
phase of both resolver implementations. -/
def best_scan {α : Type} : List (α × ℚ) → Option α → ℚ → Option α
  | [], best, bestArea => if 0 < bestArea then best else none
  | (n, v) :: rest, best, bestArea =>
    if bestArea < v then best_scan rest (some n) v
    else best_scan rest best bestArea

/-! ## Scan decomposition lemmas -/

theorem zone_scan_eq {S : Type} (G : GeomKernel S) (pp : S) (c : Pt) :
    ∀ (zs : List ZoneShape) (best : Option String) (a : ℚ),
      zone_scan G pp c zs best a =
        match zs.find? (zone_hit G c) with
        | some z => some z.name
        | none => best_scan (zs.filterMap (zone_entry G pp)) best a := by
  intro zs
  induction zs with
  | nil => intro best a; rfl
  | cons z rest ih =>
    intro best a
    simp only [zone_scan, zone_hit, zone_entry, List.find?_cons, List.filterMap_cons]
    cases h : zone_to_polygon G z with
    | none => simpa using ih best a
    | some g =>
      by_cases he : G.isEmpty g
      · simp only [he, if_true, Bool.not_true, Bool.false_and, if_pos]
        simpa using ih best a
      · simp only [he, if_false, Bool.not_false, Bool.true_and]
        by_cases hc : G.containsPt g c
        · simp [hc]
        · simp only [hc, if_false]
          by_cases hlt : a < inter_area_d G pp g
          · simp only [hlt, if_true, best_scan]
            simpa [hlt] using ih (some z.name) (inter_area_d G pp g)
          · simp only [hlt, if_false, best_scan]
            simpa [hlt] using ih best a

theorem zone_rec_scan_eq {S : Type} (G : GeomKernel S) (pp : S) :
    ∀ (rs : List (ZoneRec S)) (best : Option (ZoneRec S)) (a : ℚ),
      zone_rec_scan G pp rs best a =
        Option.map (fun z : ZoneRec S => (z.name, z.code))
          (best_scan (rs.filterMap (rec_entry G pp)) best a) := by
  intro rs
  induction rs with
  | nil =>
    intro best a
    cases best with
    | none =>
      by_cases h : (0 : ℚ) < a <;> simp [zone_rec_scan, best_scan, h]
    | some z =>
      by_cases h : (0 : ℚ) < a <;> simp [zone_rec_scan, best_scan, h]
  | cons r rest ih =>
    intro best a
    simp only [zone_rec_scan, rec_entry, List.filterMap_cons]
    cases h : r.geometry with
    | none => simpa using ih best a
    | some g =>
      by_cases he : G.isEmpty g
      · simp only [he, if_true, if_pos]
        simpa using ih best a
      · simp only [he, if_false]
        by_cases hlt : a < G.area (G.intersection pp g)
        · simp only [hlt, if_true, best_scan]
          simpa [hlt] using ih (some r) (G.area (G.intersection pp g))
        · simp only [hlt, if_false, best_scan]
          simpa [hlt] using ih best a

/-! ## Lemmas about `best_scan` -/

theorem best_scan_stay {α : Type} (l : List (α × ℚ)) :
    ∀ (best : Option α) (a : ℚ), (∀ p ∈ l, p.2 ≤ a) →
      best_scan l best a = if 0 < a then best else none := by
  induction l with
  | nil => intro best a _; rfl
  | cons p rest ih =>
    intro best a h
    obtain ⟨n, v⟩ := p
    have hv : v ≤ a := h (n, v) (List.mem_cons_self _ _)
    simp only [best_scan, if_neg (not_lt.mpr hv)]
    exact ih best a (fun q hq => h q (List.mem_cons_of_mem _ hq))

theorem best_scan_argmax {α : Type} (l : List (α × ℚ)) :
    ∀ (i : ℕ) (hi : i < l.length) (best : Option α) (a : ℚ),
      0 ≤ a → a < (l.get ⟨i, hi⟩).2 →
      (∀ j (hj : j < l.length), (l.get ⟨j, hj⟩).2 ≤ (l.get ⟨i, hi⟩).2) →
      (∀ j (hj : j < i), (l.get ⟨j, Nat.lt_trans hj hi⟩).2 < (l.get ⟨i, hi⟩).2) →
      best_scan l best a = some (l.get ⟨i, hi⟩).1 := by
  induction l with
  | nil => intro i hi; exact absurd hi (by simp)
  | cons p rest ih =>
    intro i hi best a ha hlt hmax hfst
    obtain ⟨n, v⟩ := p
    cases i with
    | zero =>
      simp only [List.get] at hlt ⊢
      simp only [best_scan, if_pos hlt]
      have hrest : ∀ q ∈ rest, q.2 ≤ v := by
        intro q hq
        obtain ⟨⟨j, hj⟩, hget⟩ := List.mem_iff_get.mp hq
        have h2 := hmax (j + 1) (by simpa using Nat.succ_lt_succ hj)
        simp only [List.get] at h2
        rw [hget] at h2
        exact h2
      rw [best_scan_stay rest (some n) v hrest]
      exact if_pos (lt_of_le_of_lt ha hlt)
    | succ k =>
      have hk : k < rest.length := by simpa using Nat.lt_of_succ_lt_succ hi
      have hv : v < (rest.get ⟨k, hk⟩).2 := by
        have := hfst 0 (Nat.succ_pos k)
        simpa [List.get] using this
      have htarget : a < (rest.get ⟨k, hk⟩).2 := by
        simpa [List.get] using hlt
      have hmax' : ∀ j (hj : j < rest.length),
          (rest.get ⟨j, hj⟩).2 ≤ (rest.get ⟨k, hk⟩).2 := by
        intro j hj
        have := hmax (j + 1) (by simpa using Nat.succ_lt_succ hj)
        simpa [List.get] using this
      have hfst' : ∀ j (hj : j < k),
          (rest.get ⟨j, Nat.lt_trans hj hk⟩).2 < (rest.get ⟨k, hk⟩).2 := by
        intro j hj
        have := hfst (j + 1) (Nat.succ_lt_succ hj)
        simpa [List.get] using this
      simp only [best_scan]
      by_cases h : a < v
      · rw [if_pos h]
        exact ih k hk (some n) v (le_of_lt (lt_of_le_of_lt ha h)) hv hmax' hfst'
      · rw [if_neg h]
        exact ih k hk best a ha htarget hmax' hfst'

theorem best_scan_zone_bridge {S : Type} (G : GeomKernel S) (pp : S) :
    ∀ (zs : List ZoneShape) (best : Option String) (a : ℚ), 0 ≤ a →
      best_scan (zs.filterMap (zone_entry G pp)) best a =
        best_scan (zs.map (fun z => (z.name, zone_area_score G pp z))) best a := by
  intro zs
  induction zs with
  | nil => intro best a _; rfl
  | cons z rest ih =>
    intro best a ha
    simp only [List.filterMap_cons, List.map_cons, zone_entry, zone_area_score]
    cases h : zone_to_polygon G z with
    | none =>
      simp only [best_scan, if_neg (not_lt.mpr ha)]
      exact ih best a ha
    | some g =>
      by_cases he : G.isEmpty g
      · simp only [he, if_true, best_scan, if_neg (not_lt.mpr ha)]
        exact ih best a ha
      · rw [Bool.not_eq_true] at he
        simp only [he, Bool.false_eq_true, if_false, best_scan]
        by_cases hlt : a < inter_area_d G pp g
        · rw [if_pos hlt, if_pos hlt]
          exact ih (some z.name) _ (le_of_lt (lt_of_le_of_lt ha hlt))
        · rw [if_neg hlt, if_neg hlt]
          exact ih best a ha

theorem best_scan_rec_bridge {S : Type} (G : GeomKernel S) (pp : S) :
    ∀ (rs : List (ZoneRec S)) (best : Option (ZoneRec S)) (a : ℚ), 0 ≤ a →
      best_scan (rs.filterMap (rec_entry G pp)) best a =
        best_scan (rs.map (fun r => (r, rec_area_score G pp r))) best a := by
  intro rs
  induction rs with
  | nil => intro best a _; rfl
  | cons r rest ih =>
    intro best a ha
    simp only [List.filterMap_cons, List.map_cons, rec_entry, rec_area_score]
    cases h : r.geometry with
    | none =>
      simp only [best_scan, if_neg (not_lt.mpr ha)]
      exact ih best a ha
    | some g =>
      by_cases he : G.isEmpty g
      · simp only [he, if_true, best_scan, if_neg (not_lt.mpr ha)]
        exact ih best a ha
      · rw [Bool.not_eq_true] at he
        simp only [he, Bool.false_eq_true, if_false, best_scan]
        by_cases hlt : a < G.area (G.intersection pp g)
        · rw [if_pos hlt, if_pos hlt]
          exact ih (some r) _ (le_of_lt (lt_of_le_of_lt ha hlt))
        · rw [if_neg hlt, if_neg hlt]
          exact ih best a ha

/-! ## First-match and construction lemmas -/

theorem find_first_of_pred {α : Type} (p : α → Bool) (l : List α) :
    ∀ (i : ℕ) (hi : i < l.length), p (l.get ⟨i, hi⟩) = true →
      (∀ j (hj : j < i), p (l.get ⟨j, Nat.lt_trans hj hi⟩) = false) →
      l.find? p = some (l.get ⟨i, hi⟩) := by
  induction l with
  | nil => intro i hi; exact absurd hi (by simp)
  | cons x rest ih =>
    intro i hi hp hf
    cases i with
    | zero =>
      simp only [List.get] at hp ⊢
      simp [List.find?_cons, hp]
    | succ k =>
      have hx : p x = false := by
        have := hf 0 (Nat.succ_pos k)
        simpa [List.get] using this
      have hk : k < rest.length := by simpa using Nat.lt_of_succ_lt_succ hi
      have hp' : p (rest.get ⟨k, hk⟩) = true := by simpa [List.get] using hp
      have hf' : ∀ j (hj : j < k),
          p (rest.get ⟨j, Nat.lt_trans hj hk⟩) = false := by
        intro j hj
        have := hf (j + 1) (Nat.succ_lt_succ hj)
        simpa [List.get] using this
      simp only [List.get]
      rw [List.find?_cons_of_neg _ (by simp [hx])]
      exact ih k hk hp' hf'

theorem find_none_of_all {α : Type} (p : α → Bool) (l : List α)
    (h : ∀ x ∈ l, p x = false) : l.find? p = none := by
  rw [List.find?_eq_none]
  intro x hx
  simp [h x hx]

theorem make_polygon_some_parcel_poly {S : Type} (G : GeomKernel S)
    (cs : List Pt) (pp : S) (h : make_polygon G cs = some pp) :
    parcel_poly_of G cs = pp := by
  unfold make_polygon at h
  unfold parcel_poly_of
  by_cases hl : cs.length < 3
  · simp [hl] at h
  · simp only [hl, if_false] at h
    by_cases hv : G.isValid (if G.isValid (G.mkPolygon cs) then G.mkPolygon cs
        else G.buffer0 (G.mkPolygon cs))
    · simp only [if_pos hv, Option.some.injEq] at h
      exact h
    · simp [hv] at h

theorem make_polygon_some_len {S : Type} (G : GeomKernel S)
    (cs : List Pt) (pp : S) (h : make_polygon G cs = some pp) : 3 ≤ cs.length := by
  unfold make_polygon at h
  by_cases hl : cs.length < 3
  · simp [hl] at h
  · omega

theorem zone_hit_eq_containsC {S : Type} (G : GeomKernel S)
    (hEC : ∀ g p, G.isEmpty g = true → G.containsPt g p = false)
    (c : Pt) (z : ZoneShape) : zone_hit G c z = zone_containsC G c z := by
  unfold zone_hit zone_containsC
  cases h : zone_to_polygon G z with
  | none => rfl
  | some g =>
    by_cases he : G.isEmpty g
    · simp [he, hEC g c he]
    · simp [he]

theorem rec_hits_eq_containsC {S : Type} (G : GeomKernel S)
    (hEC : ∀ g p, G.isEmpty g = true → G.containsPt g p = false)
    (c : Pt) (r : ZoneRec S) : zone_rec_hits G c r = rec_containsC G c r := by
  unfold zone_rec_hits rec_containsC
  cases h : r.geometry with
  | none => rfl
  | some g =>
    by_cases he : G.isEmpty g
    · simp [he, hEC g c he]
    · simp [he]

theorem best_scan_map {α β : Type} (f : α → β) :
    ∀ (l : List (α × ℚ)) (best : Option α) (a : ℚ),
      Option.map f (best_scan l best a) =
        best_scan (l.map (fun p => (f p.1, p.2))) (Option.map f best) a := by
  intro l
  induction l with
  | nil =>
    intro best a
    by_cases h : (0 : ℚ) < a <;> simp [best_scan, h]
  | cons p rest ih =>
    intro best a
    obtain ⟨x, v⟩ := p
    simp only [List.map_cons, best_scan]
    by_cases h : a < v
    · rw [if_pos h, if_pos h]
      simpa using ih (some x) v
    · rw [if_neg h, if_neg h]
      exact ih best a

/-! ## Claims -/

/-- C1: for every parcel whose polygon builds successfully (to a non-empty
shape) and every ordered zone list, if some zone's shape contains the
parcel's centroid then the Zone Resolver — both `determine_zone` and
`find_zone_for_parcel` — returns the first such zone in input order,
regardless of any other zone's intersection area or proximity (the statement
quantifies over all kernels, so no area value can change the result). -/
theorem claim_c1 {S : Type} (G : GeomKernel S)
    (hEC : ∀ g p, G.isEmpty g = true → G.containsPt g p = false) :
    (∀ (cs : List Pt) (zs : List ZoneShape) (pp : S),
        make_polygon G cs = some pp → G.isEmpty pp = false →
        ∀ (i : ℕ) (hi : i < zs.length),
          zone_containsC G (G.centroid pp) (zs.get ⟨i, hi⟩) = true →
          (∀ j (hj : j < i),
            zone_containsC G (G.centroid pp) (zs.get ⟨j, Nat.lt_trans hj hi⟩) = false) →
          determine_zone G ⟨cs⟩ zs = some (zs.get ⟨i, hi⟩).name) ∧
    (∀ (cs : List Pt) (rs : List (ZoneRec S)), cs ≠ [] →
        ∀ (i : ℕ) (hi : i < rs.length),
          rec_containsC G (G.centroid (parcel_poly_of G cs)) (rs.get ⟨i, hi⟩) = true →
          (∀ j (hj : j < i),
            rec_containsC G (G.centroid (parcel_poly_of G cs))
              (rs.get ⟨j, Nat.lt_trans hj hi⟩) = false) →
          find_zone_for_parcel G cs rs =
            some ((rs.get ⟨i, hi⟩).name, (rs.get ⟨i, hi⟩).code)) := by
  constructor
  · intro cs zs pp hpp hne i hi hcont hfst
    unfold determine_zone
    simp only [hpp, hne, Bool.false_eq_true, if_false]
    rw [zone_scan_eq]
    have hfind : zs.find? (zone_hit G (G.centroid pp)) = some (zs.get ⟨i, hi⟩) := by
      apply find_first_of_pred
      · rw [zone_hit_eq_containsC G hEC]
        exact hcont
      · intro j hj
        rw [zone_hit_eq_containsC G hEC]
        exact hfst j hj
    rw [hfind]
  · intro cs rs hcs i hi hcont hfst
    have h1 : cs.isEmpty = false := by
      cases cs
      · exact absurd rfl hcs
      · rfl
    have h2 : rs.isEmpty = false := by
      cases rs
      · simp at hi
      · rfl
    have hfind : rs.find? (zone_rec_hits G (G.centroid (parcel_poly_of G cs))) =
        some (rs.get ⟨i, hi⟩) := by
      apply find_first_of_pred
      · rw [rec_hits_eq_containsC G hEC]
        exact hcont
      · intro j hj
        rw [rec_hits_eq_containsC G hEC]
        exact hfst j hj
    simp only [find_zone_for_parcel, h1, h2, Bool.or_self, Bool.false_eq_true,
      if_false, hfind]

/-- Witness for C1 on the box kernel: the parcel `(0,0)-(10,20)` has centroid
`(5,10)`; zone B does not contain it, zone A does, so both implementations
return zone A (second in input order, first containing the centroid). -/
theorem claim_c1_witness :
    determine_zone K0 ⟨[(0, 0), (10, 0), (10, 20), (0, 20)]⟩
        [⟨"B", [[(8, 0), (20, 0), (20, 20), (8, 20)]]⟩,
         ⟨"A", [[(0, 0), (8, 0), (8, 20), (0, 20)]]⟩] = some "A" ∧
    find_zone_for_parcel K0 [(0, 0), (10, 0), (10, 20), (0, 20)]
        [⟨"B", "TZ2", some ⟨(8, 0), (20, 20)⟩⟩,
         ⟨"A", "TZ1", some ⟨(0, 0), (8, 20)⟩⟩] = some ("A", "TZ1") := by
  constructor
  · exact (claim_c1 K0 K0_empty_not_contains).1
      [(0, 0), (10, 0), (10, 20), (0, 20)]
      [⟨"B", [[(8, 0), (20, 0), (20, 20), (8, 20)]]⟩,
       ⟨"A", [[(0, 0), (8, 0), (8, 20), (0, 20)]]⟩]
      ⟨(0, 0), (10, 20)⟩ (by decide) (by decide) 1 (by decide) (by decide)
      (by decide)
  · exact (claim_c1 K0 K0_empty_not_contains).2
      [(0, 0), (10, 0), (10, 20), (0, 20)]
      [⟨"B", "TZ2", some ⟨(8, 0), (20, 20)⟩⟩,
       ⟨"A", "TZ1", some ⟨(0, 0), (8, 20)⟩⟩]
      (by decide) 1 (by decide) (by decide) (by decide)

/-- C2: when no zone's shape contains the centroid, both resolver
implementations return the first zone attaining the maximal intersection
area, provided that maximum is positive; in particular the strictly greatest
positive area wins, and ties go to the first zone in input order. -/
theorem claim_c2 {S : Type} (G : GeomKernel S)
    (hEC : ∀ g p, G.isEmpty g = true → G.containsPt g p = false) :
    (∀ (cs : List Pt) (zs : List ZoneShape) (pp : S),
        make_polygon G cs = some pp → G.isEmpty pp = false →
        (∀ z ∈ zs, zone_containsC G (G.centroid pp) z = false) →
        ∀ (i : ℕ) (hi : i < zs.length),
          0 < zone_area_score G pp (zs.get ⟨i, hi⟩) →
          (∀ j (hj : j < zs.length),
            zone_area_score G pp (zs.get ⟨j, hj⟩) ≤
              zone_area_score G pp (zs.get ⟨i, hi⟩)) →
          (∀ j (hj : j < i),
            zone_area_score G pp (zs.get ⟨j, Nat.lt_trans hj hi⟩) <
              zone_area_score G pp (zs.get ⟨i, hi⟩)) →
          determine_zone G ⟨cs⟩ zs = some (zs.get ⟨i, hi⟩).name) ∧
    (∀ (cs : List Pt) (rs : List (ZoneRec S)), cs ≠ [] →
        (∀ r ∈ rs, rec_containsC G (G.centroid (parcel_poly_of G cs)) r = false) →
        ∀ (i : ℕ) (hi : i < rs.length),
          0 < rec_area_score G (parcel_poly_of G cs) (rs.get ⟨i, hi⟩) →
          (∀ j (hj : j < rs.length),
            rec_area_score G (parcel_poly_of G cs) (rs.get ⟨j, hj⟩) ≤
              rec_area_score G (parcel_poly_of G cs) (rs.get ⟨i, hi⟩)) →
          (∀ j (hj : j < i),
            rec_area_score G (parcel_poly_of G cs) (rs.get ⟨j, Nat.lt_trans hj hi⟩) <
              rec_area_score G (parcel_poly_of G cs) (rs.get ⟨i, hi⟩)) →
          find_zone_for_parcel G cs rs =
            some ((rs.get ⟨i, hi⟩).name, (rs.get ⟨i, hi⟩).code)) := by
  constructor
  · intro cs zs pp hpp hne hnc i hi hpos hmax hfst
    unfold determine_zone
    simp only [hpp, hne, Bool.false_eq_true, if_false]
    rw [zone_scan_eq]
    have hnone : zs.find? (zone_hit G (G.centroid pp)) = none :=
      find_none_of_all _ _ (fun z hz => by
        rw [zone_hit_eq_containsC G hEC]
        exact hnc z hz)
    rw [hnone]
    rw [best_scan_zone_bridge G pp zs none 0 le_rfl]
    have key := best_scan_argmax
      (zs.map (fun z => (z.name, zone_area_score G pp z))) i
      (by simpa using hi) none 0 le_rfl
      (by simpa [List.get_eq_getElem, List.getElem_map] using hpos)
      (by
        intro j hj
        have hj' : j < zs.length := by simpa using hj
        simpa [List.get_eq_getElem, List.getElem_map] using hmax j hj')
      (by
        intro j hj
        simpa [List.get_eq_getElem, List.getElem_map] using hfst j hj)
    simpa [List.get_eq_getElem, List.getElem_map] using key
  · intro cs rs hcs hnc i hi hpos hmax hfst
    have h1 : cs.isEmpty = false := by
      cases cs
      · exact absurd rfl hcs
      · rfl
    have h2 : rs.isEmpty = false := by
      cases rs
      · simp at hi
      · rfl
    have hnone : rs.find? (zone_rec_hits G (G.centroid (parcel_poly_of G cs))) = none :=
      find_none_of_all _ _ (fun r hr => by
        rw [rec_hits_eq_containsC G hEC]
        exact hnc r hr)
    simp only [find_zone_for_parcel, h1, h2, Bool.or_self, Bool.false_eq_true,
      if_false, hnone]
    rw [zone_rec_scan_eq]
    rw [best_scan_rec_bridge G (parcel_poly_of G cs) rs none 0 le_rfl]
    have key := best_scan_argmax
      (rs.map (fun r => (r, rec_area_score G (parcel_poly_of G cs) r))) i
      (by simpa using hi) none 0 le_rfl
      (by simpa [List.get_eq_getElem, List.getElem_map] using hpos)
      (by
        intro j hj
        have hj' : j < rs.length := by simpa using hj
        simpa [List.get_eq_getElem, List.getElem_map] using hmax j hj')
      (by
        intro j hj
        simpa [List.get_eq_getElem, List.getElem_map] using hfst j hj)
    rw [key]
    simp [List.get_eq_getElem, List.getElem_map]

/-- Witness for C2 on the box kernel: the parcel `(0,0)-(10,10)` has centroid
`(5,5)`, which lies on the shared boundary of zones A and B and strictly
inside neither; both halves meet the parcel with area 50 (a tie), so the
first zone in input order, A, is returned by both implementations. -/
theorem claim_c2_witness :
    determine_zone K0 ⟨[(0, 0), (10, 0), (10, 10), (0, 10)]⟩
        [⟨"A", [[(0, 0), (5, 0), (5, 10), (0, 10)]]⟩,
         ⟨"B", [[(5, 0), (10, 0), (10, 10), (5, 10)]]⟩] = some "A" ∧
    find_zone_for_parcel K0 [(0, 0), (10, 0), (10, 10), (0, 10)]
        [⟨"A", "TZ1", some ⟨(0, 0), (5, 10)⟩⟩,
         ⟨"B", "TZ2", some ⟨(5, 0), (10, 10)⟩⟩] = some ("A", "TZ1") := by
  constructor
  · exact (claim_c2 K0 K0_empty_not_contains).1
      [(0, 0), (10, 0), (10, 10), (0, 10)]
      [⟨"A", [[(0, 0), (5, 0), (5, 10), (0, 10)]]⟩,
       ⟨"B", [[(5, 0), (10, 0), (10, 10), (5, 10)]]⟩]
      ⟨(0, 0), (10, 10)⟩ (by decide) (by decide) (by decide) 0 (by decide)
      (by decide) (by decide) (by decide)
  · exact (claim_c2 K0 K0_empty_not_contains).2
      [(0, 0), (10, 0), (10, 10), (0, 10)]
      [⟨"A", "TZ1", some ⟨(0, 0), (5, 10)⟩⟩,
       ⟨"B", "TZ2", some ⟨(5, 0), (10, 10)⟩⟩]
      (by decide) (by decide) 0 (by decide) (by decide) (by decide) (by decide)

/-- C3: when the parcel polygon fails to build, or every zone geometry fails
to build, or no zone contains the centroid and every intersection area is
zero, the Zone Resolver returns `none` — the explicit no-zone value — in both
implementations (the embedded functions are total, so no error is raised and
no default zone is produced). -/
theorem claim_c3 {S : Type} (G : GeomKernel S)
    (hEC : ∀ g p, G.isEmpty g = true → G.containsPt g p = false) :
    (∀ (cs : List Pt) (zs : List ZoneShape),
        make_polygon G cs = none → determine_zone G ⟨cs⟩ zs = none) ∧
    (∀ (cs : List Pt) (zs : List ZoneShape) (pp : S),
        make_polygon G cs = some pp → G.isEmpty pp = false →
        (∀ z ∈ zs, zone_to_polygon G z = none) →
        determine_zone G ⟨cs⟩ zs = none) ∧
    (∀ (cs : List Pt) (zs : List ZoneShape) (pp : S),
        make_polygon G cs = some pp → G.isEmpty pp = false →
        (∀ z ∈ zs, zone_containsC G (G.centroid pp) z = false) →
        (∀ z ∈ zs, zone_area_score G pp z = 0) →
        determine_zone G ⟨cs⟩ zs = none) ∧
    (∀ (cs : List Pt) (rs : List (ZoneRec S)),
        (∀ r ∈ rs, r.geometry = none) →
        find_zone_for_parcel G cs rs = none) ∧
    (∀ (cs : List Pt) (rs : List (ZoneRec S)),
        (∀ r ∈ rs, rec_containsC G (G.centroid (parcel_poly_of G cs)) r = false) →
        (∀ r ∈ rs, rec_area_score G (parcel_poly_of G cs) r = 0) →
        find_zone_for_parcel G cs rs = none) := by
  refine ⟨?_, ?_, ?_, ?_, ?_⟩
  · intro cs zs h
    unfold determine_zone
    simp [h]
  · intro cs zs pp hpp hne hz
    unfold determine_zone
    simp only [hpp, hne, Bool.false_eq_true, if_false]
    rw [zone_scan_eq]
    have hnone : zs.find? (zone_hit G (G.centroid pp)) = none :=
      find_none_of_all _ _ (fun z hzz => by simp [zone_hit, hz z hzz])
    have hnil : zs.filterMap (zone_entry G pp) = [] := by
      rw [List.filterMap_eq_nil_iff]
      intro z hzz
      simp [zone_entry, hz z hzz]
    rw [hnone, hnil]
    simp [best_scan]
  · intro cs zs pp hpp hne hnc hz
    unfold determine_zone
    simp only [hpp, hne, Bool.false_eq_true, if_false]
    rw [zone_scan_eq]
    have hnone : zs.find? (zone_hit G (G.centroid pp)) = none :=
      find_none_of_all _ _ (fun z hzz => by
        rw [zone_hit_eq_containsC G hEC]
        exact hnc z hzz)
    rw [hnone]
    rw [best_scan_zone_bridge G pp zs none 0 le_rfl]
    rw [best_scan_stay _ none 0 (by
      intro p hp
      obtain ⟨z, hzz, rfl⟩ := List.mem_map.mp hp
      exact le_of_eq (hz z hzz))]
    simp
  · intro cs rs hg
    by_cases hguard : (cs.isEmpty || rs.isEmpty) = true
    · simp [find_zone_for_parcel, hguard]
    · have hguard' : (cs.isEmpty || rs.isEmpty) = false := by simpa using hguard
      have hnone : rs.find? (zone_rec_hits G (G.centroid (parcel_poly_of G cs))) = none :=
        find_none_of_all _ _ (fun r hr => by simp [zone_rec_hits, hg r hr])
      have hnil : rs.filterMap (rec_entry G (parcel_poly_of G cs)) = [] := by
        rw [List.filterMap_eq_nil_iff]
        intro r hr
        simp [rec_entry, hg r hr]
      simp only [find_zone_for_parcel, hguard', Bool.false_eq_true, if_false, hnone]
      rw [zone_rec_scan_eq, hnil]
      simp [best_scan]
  · intro cs rs hnc hz
    by_cases hguard : (cs.isEmpty || rs.isEmpty) = true
    · simp [find_zone_for_parcel, hguard]
    · have hguard' : (cs.isEmpty || rs.isEmpty) = false := by simpa using hguard
      have hnone : rs.find? (zone_rec_hits G (G.centroid (parcel_poly_of G cs))) = none :=
        find_none_of_all _ _ (fun r hr => by
          rw [rec_hits_eq_containsC G hEC]
          exact hnc r hr)
      simp only [find_zone_for_parcel, hguard', Bool.false_eq_true, if_false, hnone]
      rw [zone_rec_scan_eq]
      rw [best_scan_rec_bridge G (parcel_poly_of G cs) rs none 0 le_rfl]
      rw [best_scan_stay _ none 0 (by
        intro p hp
        obtain ⟨r, hr, rfl⟩ := List.mem_map.mp hp
        exact le_of_eq (hz r hr))]
      simp

/-- Witness for C3 on the box kernel, exercising all five cases: a
two-point parcel contour (construction fails); a one-point zone contour
(zone geometry fails); a zone disjoint from the parcel (zero overlap); a
record with no geometry; and a record disjoint from the parcel. -/
theorem claim_c3_witness :
    determine_zone K0 ⟨[(0, 0), (1, 0)]⟩ [⟨"A", [[(0, 0), (1, 0), (1, 1)]]⟩] = none ∧
    determine_zone K0 ⟨[(0, 0), (1, 0), (1, 1), (0, 1)]⟩ [⟨"A", [[(5, 5)]]⟩] = none ∧
    determine_zone K0 ⟨[(0, 0), (1, 0), (1, 1), (0, 1)]⟩
      [⟨"A", [[(5, 5), (6, 5), (6, 6), (5, 6)]]⟩] = none ∧
    find_zone_for_parcel K0 [(0, 0), (1, 0), (1, 1), (0, 1)] [⟨"A", "TZ1", none⟩] = none ∧
    find_zone_for_parcel K0 [(0, 0), (1, 0), (1, 1), (0, 1)]
      [⟨"A", "TZ1", some ⟨(5, 5), (6, 6)⟩⟩] = none := by
  refine ⟨?_, ?_, ?_, ?_, ?_⟩
  · exact (claim_c3 K0 K0_empty_not_contains).1 _ _ (by decide)
  · exact (claim_c3 K0 K0_empty_not_contains).2.1 _ _ ⟨(0, 0), (1, 1)⟩
      (by decide) (by decide) (by decide)
  · exact (claim_c3 K0 K0_empty_not_contains).2.2.1 _ _ ⟨(0, 0), (1, 1)⟩
      (by decide) (by decide) (by decide) (by decide)
  · exact (claim_c3 K0 K0_empty_not_contains).2.2.2.1 _ _ (by decide)
  · exact (claim_c3 K0 K0_empty_not_contains).2.2.2.2 _ _ (by decide) (by decide)

/-! ## Correspondence between the two resolver implementations -/

theorem inter_area_d_eq {S : Type} (G : GeomKernel S)
    (hA : ∀ s, G.isEmpty s = true → G.area s = 0)
    (hComm : ∀ a b, G.area (G.intersection a b) = G.area (G.intersection b a))
    (pp g : S) : inter_area_d G pp g = G.area (G.intersection pp g) := by
  unfold inter_area_d
  by_cases he : G.isEmpty (G.intersection g pp) = true
  · rw [if_pos he, hComm, hA _ he]
  · rw [if_neg he, hComm]

theorem zone_corr_find {S : Type} (G : GeomKernel S) :
    ∀ (zs : List ZoneShape) (rs : List (ZoneRec S)) (c : Pt),
      rs.map (fun r => r.geometry) = zs.map (zone_to_polygon G) →
      rs.map (fun r => r.name) = zs.map (fun z => z.name) →
      Option.map (fun r : ZoneRec S => r.name) (rs.find? (zone_rec_hits G c)) =
        Option.map (fun z : ZoneShape => z.name) (zs.find? (zone_hit G c)) ∧
      (rs.find? (zone_rec_hits G c)).isSome = (zs.find? (zone_hit G c)).isSome := by
  intro zs
  induction zs with
  | nil =>
    intro rs c hg hn
    cases rs with
    | nil => simp
    | cons r rs' => simp at hg
  | cons z zs' ih =>
    intro rs c hg hn
    cases rs with
    | nil => simp at hg
    | cons r rs' =>
      simp only [List.map_cons, List.cons.injEq] at hg hn
      obtain ⟨hg1, hg2⟩ := hg
      obtain ⟨hn1, hn2⟩ := hn
      have hpred : zone_rec_hits G c r = zone_hit G c z := by
        unfold zone_rec_hits zone_hit
        rw [hg1]
      cases hp : zone_hit G c z with
      | true =>
        rw [List.find?_cons_of_pos _ (by rw [hpred]; exact hp),
          List.find?_cons_of_pos _ hp]
        simp [hn1]
      | false =>
        rw [List.find?_cons_of_neg _ (by simp [hpred, hp]),
          List.find?_cons_of_neg _ (by simp [hp])]
        exact ih rs' c hg2 hn2

theorem zone_corr_entries {S : Type} (G : GeomKernel S)
    (hA : ∀ s, G.isEmpty s = true → G.area s = 0)
    (hComm : ∀ a b, G.area (G.intersection a b) = G.area (G.intersection b a))
    (pp : S) :
    ∀ (zs : List ZoneShape) (rs : List (ZoneRec S)),
      rs.map (fun r => r.geometry) = zs.map (zone_to_polygon G) →
      rs.map (fun r => r.name) = zs.map (fun z => z.name) →
      (rs.filterMap (rec_entry G pp)).map (fun p => (p.1.name, p.2)) =
        zs.filterMap (zone_entry G pp) := by
  intro zs
  induction zs with
  | nil =>
    intro rs hg hn
    cases rs with
    | nil => simp
    | cons r rs' => simp at hg
  | cons z zs' ih =>
    intro rs hg hn
    cases rs with
    | nil => simp at hg
    | cons r rs' =>
      simp only [List.map_cons, List.cons.injEq] at hg hn
      obtain ⟨hg1, hg2⟩ := hg
      obtain ⟨hn1, hn2⟩ := hn
      simp only [List.filterMap_cons, rec_entry, zone_entry, hg1]
      cases hz : zone_to_polygon G z with
      | none => exact ih rs' hg2 hn2
      | some g =>
        by_cases he : G.isEmpty g = true
        · simp only [he, if_true]
          exact ih rs' hg2 hn2
        · simp only [he, if_false, Bool.false_eq_true, List.map_cons]
          rw [ih rs' hg2 hn2, hn1, inter_area_d_eq G hA hComm]

/-- C10: the two independent Zone Resolver implementations agree.  For a
parcel polygon that builds to a non-empty shape and zone lists whose built
geometries and names correspond across the two representations,
`find_zone_for_parcel` (two separate phases) and `determine_zone` (single
interleaved loop) select the same zone name, or both return the no-zone
value.  The kernel hypotheses are the library facts that an empty shape has
zero area and that intersection area is symmetric. -/
theorem claim_c10 {S : Type} (G : GeomKernel S)
    (hA : ∀ s, G.isEmpty s = true → G.area s = 0)
    (hComm : ∀ a b, G.area (G.intersection a b) = G.area (G.intersection b a))
    (cs : List Pt) (zs : List ZoneShape) (rs : List (ZoneRec S)) (pp : S)
    (hpp : make_polygon G cs = some pp) (hne : G.isEmpty pp = false)
    (hgeom : rs.map (fun r => r.geometry) = zs.map (zone_to_polygon G))
    (hname : rs.map (fun r => r.name) = zs.map (fun z => z.name)) :
    Option.map Prod.fst (find_zone_for_parcel G cs rs) = determine_zone G ⟨cs⟩ zs := by
  have hcs : cs.isEmpty = false := by
    have h3 := make_polygon_some_len G cs pp hpp
    cases cs
    · simp at h3
    · rfl
  unfold determine_zone
  simp only [hpp, hne, Bool.false_eq_true, if_false]
  by_cases hre : rs.isEmpty = true
  · have hzs : zs = [] := by
      cases rs with
      | nil =>
        cases zs with
        | nil => rfl
        | cons a b => simp at hgeom
      | cons a b => simp at hre
    subst hzs
    simp [find_zone_for_parcel, hre, zone_scan]
  · have hre' : rs.isEmpty = false := by simpa using hre
    simp only [find_zone_for_parcel, hcs, hre', Bool.or_self, Bool.false_eq_true,
      if_false]
    rw [make_polygon_some_parcel_poly G cs pp hpp]
    rw [zone_scan_eq]
    obtain ⟨hfind_names, hfind_some⟩ :=
      zone_corr_find G zs rs (G.centroid pp) hgeom hname
    cases hfz : zs.find? (zone_hit G (G.centroid pp)) with
    | some z =>
      rw [hfz] at hfind_names hfind_some
      cases hfr : rs.find? (zone_rec_hits G (G.centroid pp)) with
      | none => rw [hfr] at hfind_some; simp at hfind_some
      | some r =>
        rw [hfr] at hfind_names
        simp only [Option.map_some] at hfind_names ⊢
        simpa using hfind_names
    | none =>
      rw [hfz] at hfind_some
      cases hfr : rs.find? (zone_rec_hits G (G.centroid pp)) with
      | some r => rw [hfr] at hfind_some; simp at hfind_some
      | none =>
        rw [zone_rec_scan_eq]
        rw [Option.map_map]
        have hcomp : (Prod.fst ∘ fun z : ZoneRec S => (z.name, z.code)) =
            (fun z : ZoneRec S => z.name) := rfl
        rw [hcomp]
        rw [best_scan_map (fun z : ZoneRec S => z.name) _ none 0]
        show _ = best_scan (zs.filterMap (zone_entry G pp)) none 0
        rw [← zone_corr_entries G hA hComm pp zs rs hgeom hname]
        rfl

/-- Witness for C10 on the box kernel: a parcel and a single corresponding
zone in both representations; the kernel hypotheses are discharged by the
box-kernel lemmas and the list correspondences by computation. -/
theorem claim_c10_witness :
    Option.map Prod.fst (find_zone_for_parcel K0 [(0, 0), (10, 0), (10, 20), (0, 20)]
        [⟨"A", "TZ1", some ⟨(0, 0), (8, 20)⟩⟩]) =
      determine_zone K0 ⟨[(0, 0), (10, 0), (10, 20), (0, 20)]⟩
        [⟨"A", [[(0, 0), (8, 0), (8, 20), (0, 20)]]⟩] :=
  claim_c10 K0 K0_area_of_empty K0_area_comm
    [(0, 0), (10, 0), (10, 20), (0, 20)]
    [⟨"A", [[(0, 0), (8, 0), (8, 20), (0, 20)]]⟩]
    [⟨"A", "TZ1", some ⟨(0, 0), (8, 20)⟩⟩]
    ⟨(0, 0), (10, 20)⟩ (by decide) (by decide) (by decide) (by decide)

/-! ## The Restriction/Attribute Matcher -/

theorem matcher_filterMap_eq {S α β : Type} (G : GeomKernel S) (pp : S)
    (geo : α → Option S) (out : α → β) :
    ∀ (recs : List α),
      (∀ r ∈ recs, ((geo r).elim false (fun g => !G.isEmpty g)) = true) →
      recs.filterMap (fun r =>
        match geo r with
        | none => none
        | some g =>
          if G.isEmpty g then none
          else if G.intersects pp g then some (out r) else none) =
      (recs.filter (fun r => (geo r).elim false (fun g => G.intersects pp g))).map out := by
  intro recs
  induction recs with
  | nil => intro _; rfl
  | cons r rest ih =>
    intro hg
    have hr := hg r (List.mem_cons_self _ _)
    have hrest := fun q hq => hg q (List.mem_cons_of_mem _ hq)
    cases hgr : geo r with
    | none => rw [hgr] at hr; simp at hr
    | some g =>
      rw [hgr] at hr
      simp only [Option.elim] at hr
      have hge : G.isEmpty g = false := by simpa using hr
      have hcond : ((geo r).elim false fun g => G.intersects pp g) =
          G.intersects pp g := by
        rw [hgr]
        rfl
      simp only [List.filterMap_cons, List.filter_cons, hgr, hge,
        Bool.false_eq_true, if_false, hcond]
      cases hint : G.intersects pp g with
      | true => simp [hint, ih hrest]
      | false => simp [hint, ih hrest]

/-- C6: for every parcel polygon and list of geometry-bearing records (of any
length, including zero), the Restriction Matcher — `find_restrictions_for_parcel`
and `find_objects_on_parcel` — returns exactly the records whose geometry
satisfies the boolean `intersects` predicate against the parcel polygon, in
the original input order (a `filter`), with each matched record's attribute
payload projected unchanged and without deduplication. -/
theorem claim_c6 {S : Type} (G : GeomKernel S) :
    (∀ (coords : List Pt) (recs : List (RestrRec S)), coords ≠ [] →
        (∀ r ∈ recs, (r.geometry.elim false (fun g => !G.isEmpty g)) = true) →
        find_restrictions_for_parcel G coords recs =
          (recs.filter (fun r =>
            r.geometry.elim false
              (fun g => G.intersects (parcel_poly_of G coords) g))).map restr_out) ∧
    (∀ (coords : List Pt) (objs : List (ObjRec S)), coords ≠ [] →
        (∀ r ∈ objs, (r.geometry.elim false (fun g => !G.isEmpty g)) = true) →
        find_objects_on_parcel G coords objs =
          (objs.filter (fun r =>
            r.geometry.elim false
              (fun g => G.intersects (parcel_poly_of G coords) g))).map obj_out) := by
  constructor
  · intro coords recs hc hg
    have h1 : coords.isEmpty = false := by
      cases coords
      · exact absurd rfl hc
      · rfl
    cases recs with
    | nil => simp [find_restrictions_for_parcel, h1]
    | cons r rest =>
      simp only [find_restrictions_for_parcel, h1, List.isEmpty_cons, Bool.or_false,
        Bool.false_eq_true, if_false]
      exact matcher_filterMap_eq G (parcel_poly_of G coords)
        (fun r => r.geometry) restr_out (r :: rest) hg
  · intro coords objs hc hg
    have h1 : coords.isEmpty = false := by
      cases coords
      · exact absurd rfl hc
      · rfl
    cases objs with
    | nil => simp [find_objects_on_parcel, h1]
    | cons r rest =>
      simp only [find_objects_on_parcel, h1, List.isEmpty_cons, Bool.or_false,
        Bool.false_eq_true, if_false]
      exact matcher_filterMap_eq G (parcel_poly_of G coords)
        (fun r => r.geometry) obj_out (r :: rest) hg

/-- Witness for C6 on the box kernel: of two restriction records (and two
object records) the first overlaps the parcel and the second is disjoint; the
matcher output equals the filter-and-project of the inputs. -/
theorem claim_c6_witness :
    find_restrictions_for_parcel K0 [(0, 0), (10, 0), (10, 10), (0, 10)]
        [⟨some (some "ZOUIT"), some (some "Zone1"), none, some (some "77"),
          some none, some (some "Org"), some ⟨(5, 5), (20, 20)⟩⟩,
         ⟨some (some "ZOUIT"), some (some "Zone2"), none, some (some "78"),
          some (some "2020"), some none, some ⟨(11, 11), (20, 20)⟩⟩] =
      ([(⟨some (some "ZOUIT"), some (some "Zone1"), none, some (some "77"),
          some none, some (some "Org"), some ⟨(5, 5), (20, 20)⟩⟩ : RestrRec Box),
        ⟨some (some "ZOUIT"), some (some "Zone2"), none, some (some "78"),
          some (some "2020"), some none, some ⟨(11, 11), (20, 20)⟩⟩].filter
        (fun r => r.geometry.elim false
          (fun g => K0.intersects
            (parcel_poly_of K0 [(0, 0), (10, 0), (10, 10), (0, 10)]) g))).map
        restr_out ∧
    find_objects_on_parcel K0 [(0, 0), (10, 0), (10, 10), (0, 10)]
        [⟨some (some "73:01:010101:5"), some none, some (some "школа"),
          some (some "120.5"), some (some "2"), some ⟨(2, 2), (4, 4)⟩⟩,
         ⟨some (some "73:01:010101:6"), some none, some (some "гараж"),
          some (some "30"), some (some "1"), some ⟨(40, 40), (50, 50)⟩⟩] =
      ([(⟨some (some "73:01:010101:5"), some none, some (some "школа"),
          some (some "120.5"), some (some "2"), some ⟨(2, 2), (4, 4)⟩⟩ : ObjRec Box),
        ⟨some (some "73:01:010101:6"), some none, some (some "гараж"),
          some (some "30"), some (some "1"), some ⟨(40, 40), (50, 50)⟩⟩].filter
        (fun r => r.geometry.elim false
          (fun g => K0.intersects
            (parcel_poly_of K0 [(0, 0), (10, 0), (10, 10), (0, 10)]) g))).map
        obj_out :=
  ⟨(claim_c6 K0).1 _ _ (by decide) (by decide),
   (claim_c6 K0).2 _ _ (by decide) (by decide)⟩

/-- C4 counterexample: a ZIP with a larger readable `proto_data.xml` and a
smaller readable `data.xml`.  Neither name matches the keyword priority
pattern, so both pickers fall back to size-descending order and select the
`proto_data.xml` payload — the claimed `proto_` exclusion does not exist. -/
theorem claim_c4_counterexample :
    pick_xml_from_zip
      [⟨"proto_data.xml", 200, some "PROTO"⟩, ⟨"data.xml", 100, some "DATA"⟩] =
      some "PROTO" ∧
    kpt_pick_xml
      [⟨"proto_data.xml", 200, some "PROTO"⟩, ⟨"data.xml", 100, some "DATA"⟩] =
      some "PROTO" ∧
    some "PROTO" ≠ some "DATA" := by
  refine ⟨?_, ?_, by decide⟩ <;> rfl

/-- C4 amended: container resolution never excludes `proto_`-prefixed
members.  Members whose names match the keyword pattern form the first-choice
pool; with no keyword match, all XML/XML.GZ members are tried in descending
file-size order and the first readable payload wins — so with `data.xml` and
`proto_data.xml` the larger member is selected, whichever it is. -/
theorem claim_c4_amended (d₁ d₂ : String) :
    (pick_xml_from_zip
        [⟨"proto_data.xml", 200, some d₁⟩, ⟨"data.xml", 100, some d₂⟩] = some d₁ ∧
      kpt_pick_xml
        [⟨"proto_data.xml", 200, some d₁⟩, ⟨"data.xml", 100, some d₂⟩] = some d₁) ∧
    (pick_xml_from_zip
        [⟨"proto_data.xml", 100, some d₁⟩, ⟨"data.xml", 200, some d₂⟩] = some d₂ ∧
      kpt_pick_xml
        [⟨"proto_data.xml", 100, some d₁⟩, ⟨"data.xml", 200, some d₂⟩] = some d₂) :=
  ⟨⟨rfl, rfl⟩, ⟨rfl, rfl⟩⟩

/-! ## Field-extraction fallback (C5) -/

/-- Whether one `_first_text` candidate yields usable text: a non-empty
result list whose first entry strips to a non-empty string. -/
def candidate_yields (l : List String) : Bool :=
  match l with
  | [] => false
  | v :: _ => decide (sTrim v ≠ "")

/-- The value a usable `_first_text` candidate yields. -/
def candidate_value (l : List String) : String :=
  match l with
  | [] => ""
  | v :: _ => sTrim v

/-- The per-variant lookup of `get_field_value`: the exact-label match first,
then the case-insensitive scan; `some cell` when the variant names a column. -/
def row_lookup (row : List (String × Option String)) (v : String) :
    Option (Option String) :=
  match row.find? (fun col => col.1 == v) with
  | some col => some col.2
  | none =>
    match row.find? (fun col => sUpper col.1 == sUpper v) with
    | some col => some col.2
    | none => none

/-- C5 counterexample: a row whose first candidate column `A` holds blank
text and whose second candidate column `B` holds `hello`.  The claim demands
the first candidate *yielding non-empty text*, i.e. `hello`; `get_field_value`
instead returns the stripped (empty) value of the first *present* column. -/
theorem claim_c5_counterexample :
    get_field_value [("A", some " "), ("B", some "hello")] ["A", "B"] = some "" ∧
    get_field_value [("A", some " "), ("B", some "hello")] ["A", "B"] ≠ some "hello" := by
  refine ⟨rfl, by decide⟩

theorem first_text_first_good {α β : Type} (ev : α → β → List String) (root : α) :
    ∀ (xps : List β) (i : ℕ) (hi : i < xps.length),
      candidate_yields (ev root (xps.get ⟨i, hi⟩)) = true →
      (∀ j (hj : j < i),
        candidate_yields (ev root (xps.get ⟨j, Nat.lt_trans hj hi⟩)) = false) →
      first_text ev root xps = some (candidate_value (ev root (xps.get ⟨i, hi⟩))) := by
  intro xps
  induction xps with
  | nil => intro i hi; exact absurd hi (by simp)
  | cons xp rest ih =>
    intro i hi hy hf
    cases i with
    | zero =>
      simp only [List.get] at hy ⊢
      unfold first_text
      cases hev : ev root xp with
      | nil => rw [hev] at hy; simp [candidate_yields] at hy
      | cons v vs =>
        rw [hev] at hy
        simp only [candidate_yields, decide_eq_true_eq] at hy
        show (if sTrim v = "" then first_text ev root rest else some (sTrim v)) =
          some (candidate_value (v :: vs))
        rw [if_neg hy]
        rfl
    | succ k =>
      have h0 : candidate_yields (ev root xp) = false := by
        have := hf 0 (Nat.succ_pos k)
        simpa [List.get] using this
      have hk : k < rest.length := by simpa using Nat.lt_of_succ_lt_succ hi
      have hy' : candidate_yields (ev root (rest.get ⟨k, hk⟩)) = true := by
        simpa [List.get] using hy
      have hf' : ∀ j (hj : j < k),
          candidate_yields (ev root (rest.get ⟨j, Nat.lt_trans hj hk⟩)) = false := by
        intro j hj
        have := hf (j + 1) (Nat.succ_lt_succ hj)
        simpa [List.get] using this
      have hrec := ih k hk hy' hf'
      unfold first_text
      cases hev : ev root xp with
      | nil => simpa [List.get] using hrec
      | cons v vs =>
        rw [hev] at h0
        simp only [candidate_yields, decide_eq_false_iff_not, not_not] at h0
        show (if sTrim v = "" then first_text ev root rest else some (sTrim v)) = _
        rw [if_pos h0]
        simpa [List.get] using hrec

theorem first_text_all_empty {α β : Type} (ev : α → β → List String) (root : α) :
    ∀ (xps : List β), (∀ xp ∈ xps, candidate_yields (ev root xp) = false) →
      first_text ev root xps = none := by
  intro xps
  induction xps with
  | nil => intro _; rfl
  | cons xp rest ih =>
    intro h
    have h0 := h xp (List.mem_cons_self _ _)
    have hrec := ih (fun q hq => h q (List.mem_cons_of_mem _ hq))
    unfold first_text
    cases hev : ev root xp with
    | nil => exact hrec
    | cons v vs =>
      rw [hev] at h0
      simp only [candidate_yields, decide_eq_false_iff_not, not_not] at h0
      show (if sTrim v = "" then first_text ev root rest else some (sTrim v)) = none
      rw [if_pos h0]
      exact hrec

theorem get_field_value_first_present (row : List (String × Option String)) :
    ∀ (vs : List String) (i : ℕ) (hi : i < vs.length) (cell : Option String),
      row_lookup row (vs.get ⟨i, hi⟩) = some cell →
      (∀ j (hj : j < i), row_lookup row (vs.get ⟨j, Nat.lt_trans hj hi⟩) = none) →
      get_field_value row vs = cell.map sTrim := by
  intro vs
  induction vs with
  | nil => intro i hi; exact absurd hi (by simp)
  | cons v rest ih =>
    intro i hi cell hl hf
    cases i with
    | zero =>
      simp only [List.get] at hl
      unfold get_field_value
      unfold row_lookup at hl
      cases h1 : row.find? (fun col => col.1 == v) with
      | some col =>
        rw [h1] at hl
        simp only [Option.some.injEq] at hl
        show Option.map sTrim col.2 = Option.map sTrim cell
        rw [hl]
      | none =>
        rw [h1] at hl
        cases h2 : row.find? (fun col => sUpper col.1 == sUpper v) with
        | some col =>
          rw [h2] at hl
          simp only [Option.some.injEq] at hl
          show Option.map sTrim col.2 = Option.map sTrim cell
          rw [hl]
        | none => rw [h2] at hl; simp at hl
    | succ k =>
      have h0 : row_lookup row v = none := by
        have := hf 0 (Nat.succ_pos k)
        simpa [List.get] using this
      have hk : k < rest.length := by simpa using Nat.lt_of_succ_lt_succ hi
      have hl' : row_lookup row (rest.get ⟨k, hk⟩) = some cell := by
        simpa [List.get] using hl
      have hf' : ∀ j (hj : j < k),
          row_lookup row (rest.get ⟨j, Nat.lt_trans hj hk⟩) = none := by
        intro j hj
        have := hf (j + 1) (Nat.succ_lt_succ hj)
        simpa [List.get] using this
      unfold row_lookup at h0
      unfold get_field_value
      cases h1 : row.find? (fun col => col.1 == v) with
      | some col => rw [h1] at h0; simp at h0
      | none =>
        rw [h1] at h0
        cases h2 : row.find? (fun col => sUpper col.1 == sUpper v) with
        | some col => rw [h2] at h0; simp at h0
        | none =>
          show get_field_value row rest = Option.map sTrim cell
          exact ih k hk cell hl' hf'

/-- C5 amended: `_first_text` does implement the claimed fallback — it
returns the stripped first entry of the first candidate yielding non-empty
text, and `none` when every candidate yields empty text, never raising.
`get_field_value`, however, returns the stripped value of the first candidate
*name present in the row* (exact match, then case-insensitive), even when
that value strips to the empty string or is null — it does not move on to the
next candidate on empty text; `none` is returned only when no candidate names
a column. -/
theorem claim_c5_amended :
    (∀ {α β : Type} (ev : α → β → List String) (root : α) (xps : List β)
        (i : ℕ) (hi : i < xps.length),
        candidate_yields (ev root (xps.get ⟨i, hi⟩)) = true →
        (∀ j (hj : j < i),
          candidate_yields (ev root (xps.get ⟨j, Nat.lt_trans hj hi⟩)) = false) →
        first_text ev root xps = some (candidate_value (ev root (xps.get ⟨i, hi⟩)))) ∧
    (∀ {α β : Type} (ev : α → β → List String) (root : α) (xps : List β),
        (∀ xp ∈ xps, candidate_yields (ev root xp) = false) →
        first_text ev root xps = none) ∧
    (∀ (row : List (String × Option String)) (vs : List String) (i : ℕ)
        (hi : i < vs.length) (cell : Option String),
        row_lookup row (vs.get ⟨i, hi⟩) = some cell →
        (∀ j (hj : j < i), row_lookup row (vs.get ⟨j, Nat.lt_trans hj hi⟩) = none) →
        get_field_value row vs = cell.map sTrim) :=
  ⟨fun ev root xps i hi => first_text_first_good ev root xps i hi,
   fun ev root xps => first_text_all_empty ev root xps,
   fun row vs i hi => get_field_value_first_present row vs i hi⟩

/-- Witness for C5 amended: a blank first candidate is skipped by
`_first_text` and `ok` is returned; all-empty candidates give `none`; and
`get_field_value` returns the value of the first present column `B` when the
earlier variant `Z` names no column. -/
theorem claim_c5_witness :
    first_text (fun (_ : Unit) (q : List String) => q) () [[" "], ["ok"]] = some "ok" ∧
    first_text (fun (_ : Unit) (q : List String) => q) () [[""], []] = none ∧
    get_field_value [("A", some " "), ("B", some "hello")] ["Z", "B"] = some "hello" := by
  refine ⟨?_, ?_, ?_⟩
  · exact claim_c5_amended.1 (fun (_ : Unit) (q : List String) => q) () [[" "], ["ok"]]
      1 (by decide) (by decide) (by decide)
  · exact claim_c5_amended.2.1 (fun (_ : Unit) (q : List String) => q) () [[""], []]
      (by decide)
  · exact claim_c5_amended.2.2 [("A", some " "), ("B", some "hello")] ["Z", "B"]
      1 (by decide) (some "hello") (by decide) (by decide)

theorem first_text_ne_empty {α β : Type} (ev : α → β → List String) (root : α) :
    ∀ (xps : List β) (v : String), first_text ev root xps = some v → v ≠ "" := by
  intro xps
  induction xps with
  | nil => intro v h; simp [first_text] at h
  | cons xp rest ih =>
    intro v h
    unfold first_text at h
    cases hev : ev root xp with
    | nil =>
      rw [hev] at h
      exact ih v h
    | cons w ws =>
      rw [hev] at h
      change (if sTrim w = "" then first_text ev root rest else some (sTrim w)) =
        some v at h
      by_cases ht : sTrim w = ""
      · rw [if_pos ht] at h
        exact ih v h
      · rw [if_neg ht] at h
        simp only [Option.some.injEq] at h
        rw [← h]
        exact ht

/-- C9 counterexample: an ordinate in the parcel-boundary contour subtree
with `x`/`y` children but no `ord_nmb` child and no `Num`/`num` attribute.
The Cadastral Record Extractor emits it with the point-number label `""`,
not the 1-based running index `"1"` the claim describes. -/
theorem claim_c9_counterexample :
    extract_coords (XTree.node "land_record" [] ""
      [XTree.node "contours_location" [] ""
        [XTree.node "contours" [] ""
          [XTree.node "contour" [] ""
            [XTree.node "entity_spatial" [] ""
              [XTree.node "spatials_elements" [] ""
                [XTree.node "spatial_element" [] ""
                  [XTree.node "ordinates" [] ""
                    [XTree.node "ordinate" [] ""
                      [XTree.node "x" [] "10.0" [],
                       XTree.node "y" [] "20.0" []]]]]]]]]]) =
      [⟨"", "10.0", "20.0"⟩] ∧
    (⟨"", "10.0", "20.0"⟩ : Coord).num ≠ "1" := by
  exact ⟨rfl, by decide⟩

/-- C9 amended: the point-number label is taken from the `ord_nmb` child
text, falling back to the `Num`/`num` attributes, and defaulting to the
*empty string* when neither is present — no 1-based running index is ever
assigned. -/
theorem claim_c9_amended :
    (∀ (o : XTree) (v : String),
        first_text childTexts o [fun t => sLower t == "ord_nmb"] = some v →
        ∃ c, coordOfOrdinate o = some c ∧ c.num = v) ∧
    (∀ (o : XTree) (c : Coord),
        first_text childTexts o [fun t => sLower t == "ord_nmb"] = none →
        getAttr o "Num" = none → getAttr o "num" = none →
        coordOfOrdinate o = some c → c.num = "") := by
  constructor
  · intro o v h
    have hv : v ≠ "" := first_text_ne_empty childTexts o _ v h
    simp only [coordOfOrdinate, h]
    rw [if_pos (Or.inr (Or.inr hv))]
    exact ⟨_, rfl, rfl⟩
  · intro o c h hN hn hc
    simp only [coordOfOrdinate, h, hN, hn, pyOr] at hc
    split at hc
    · rw [Option.some.injEq] at hc
      rw [← hc]
      rfl
    · exact absurd hc (by simp)

/-- Witness for C9 amended: an ordinate whose `Ord_Nmb` child holds ` 7 `
gets label `7`; an ordinate with only `x`/`y` children gets label `""`. -/
theorem claim_c9_witness :
    (∃ c, coordOfOrdinate (XTree.node "ordinate" [] ""
        [XTree.node "Ord_Nmb" [] " 7 " [],
         XTree.node "x" [] "1" [], XTree.node "y" [] "2" []]) = some c ∧
        c.num = "7") ∧
    (⟨"", "10.0", "20.0"⟩ : Coord).num = "" := by
  constructor
  · exact claim_c9_amended.1 _ "7" (by decide)
  · exact claim_c9_amended.2
      (XTree.node "ordinate" [] ""
        [XTree.node "x" [] "10.0" [], XTree.node "y" [] "20.0" []])
      ⟨"", "10.0", "20.0"⟩ (by decide) (by decide) (by decide) (by decide)

/-! ## Zone-record acceptance (C7) -/

/-- A test ordinate element with `x`/`y` child texts. -/
def c7ordinate (xs ys : String) : XTree :=
  XTree.node "ordinate" [] "" [XTree.node "x" [] xs [], XTree.node "y" [] ys []]

/-- A `zones_and_territories_record` whose declared boundary type is
`Береговая линия` (a shoreline — not a territorial zone). -/
def c7record : XTree :=
  XTree.node "zones_and_territories_record" [] ""
    [XTree.node "b_object_zones_and_territories" [] ""
      [XTree.node "type_boundary" [] ""
        [XTree.node "value" [] "Береговая линия" []],
       XTree.node "b_object" [] ""
        [XTree.node "zone_name" [] "Охранная зона водного объекта" []],
       XTree.node "b_boundaries" [] ""
        [XTree.node "b_contours_location" [] ""
          [XTree.node "entity_spatial" [] ""
            [XTree.node "spatials_elements" [] ""
              [XTree.node "spatial_element" [] ""
                [XTree.node "ordinates" [] ""
                  [c7ordinate "0" "0", c7ordinate "1" "0",
                   c7ordinate "1" "1", c7ordinate "0" "1"]]]]]]]]

/-- A cadastral-plan document containing only the non-territorial record. -/
def c7doc : XTree :=
  XTree.node "extract_cadastral_plan_territory" [] ""
    [XTree.node "zones_and_territories" [] ""
      [XTree.node "zones_and_territories_records" [] "" [c7record]]]

/-- C7 counterexample: the record's declared boundary-type text is
`Береговая линия`, which does not contain the phrase `Территориальная зона`,
yet the Zone Map Extractor accepts the record and returns it in the zone
list — no boundary-type filtering exists. -/
theorem claim_c7_counterexample :
    parse_from_zones_and_territories c7doc =
      [⟨"Охранная зона водного объекта", none,
        [[(0, 0), (1, 0), (1, 1), (0, 1), (0, 0)]]⟩] ∧
    chainTexts c7record
      ["b_object_zones_and_territories", "type_boundary", "value"] =
      ["Береговая линия"] ∧
    decide (List.IsInfix "Территориальная зона".data "Береговая линия".data) = false := by
  refine ⟨rfl, rfl, by decide⟩

theorem first_text_congr {α β : Type} (ev : α → β → List String) (r r' : α) :
    ∀ (xps : List β), (∀ xp ∈ xps, ev r xp = ev r' xp) →
      first_text ev r xps = first_text ev r' xps := by
  intro xps
  induction xps with
  | nil => intro _; rfl
  | cons xp rest ih =>
    intro h
    have hrec := ih (fun q hq => h q (List.mem_cons_of_mem _ hq))
    unfold first_text
    rw [h xp (List.mem_cons_self _ _)]
    cases hev : ev r' xp with
    | nil => exact hrec
    | cons v vs =>
      show (if sTrim v = "" then first_text ev r rest else some (sTrim v)) =
        (if sTrim v = "" then first_text ev r' rest else some (sTrim v))
      by_cases ht : sTrim v = ""
      · rw [if_pos ht, if_pos ht]
        exact hrec
      · rw [if_neg ht, if_neg ht]

/-- C7 amended: zone-record acceptance ignores the declared boundary type
entirely.  Adding any extra element (for example a `type_boundary` subtree
with arbitrary text) to a record's `b_object_zones_and_territories` node —
any element other than the `b_object`/`b_boundaries` subtrees actually read —
leaves the parsed result unchanged; records are kept exactly when they yield
at least one usable contour. -/
theorem claim_c7_amended (rtag : String) (rattrs : List (String × String))
    (rtext : String) (bozAttrs : List (String × String)) (bozText : String)
    (pre : List XTree) (tb : XTree)
    (h1 : tb.tag ≠ "b_object") (h2 : tb.tag ≠ "b_boundaries") :
    parseZTRecord (XTree.node rtag rattrs rtext
      [XTree.node "b_object_zones_and_territories" bozAttrs bozText (pre ++ [tb])]) =
    parseZTRecord (XTree.node rtag rattrs rtext
      [XTree.node "b_object_zones_and_territories" bozAttrs bozText pre]) := by
  have hfil : ∀ nm : String, tb.tag ≠ nm →
      childrenNamed (XTree.node "b_object_zones_and_territories" bozAttrs bozText
        (pre ++ [tb])) nm =
      childrenNamed (XTree.node "b_object_zones_and_territories" bozAttrs bozText
        pre) nm := by
    intro nm hnm
    show ((pre ++ [tb]).filter fun c => c.tag == nm) = pre.filter fun c => c.tag == nm
    rw [List.filter_append]
    have hb : (tb.tag == nm) = false := beq_eq_false_iff_ne.mpr hnm
    simp [List.filter_cons, hb]
  have hchain : ∀ (nm : String) (tail : List String), tb.tag ≠ nm →
      chainElems (XTree.node rtag rattrs rtext
          [XTree.node "b_object_zones_and_territories" bozAttrs bozText (pre ++ [tb])])
        ("b_object_zones_and_territories" :: nm :: tail) =
      chainElems (XTree.node rtag rattrs rtext
          [XTree.node "b_object_zones_and_territories" bozAttrs bozText pre])
        ("b_object_zones_and_territories" :: nm :: tail) := by
    intro nm tail hnm
    unfold chainElems
    simp only [List.foldl_cons]
    have hsingle : ∀ boz : XTree, boz.tag = "b_object_zones_and_territories" →
        ([XTree.node rtag rattrs rtext [boz]].flatMap
          (fun e => childrenNamed e "b_object_zones_and_territories")) = [boz] := by
      intro boz hbz
      simp [childrenNamed, XTree.children, hbz]
    rw [hsingle (XTree.node "b_object_zones_and_territories" bozAttrs bozText
        (pre ++ [tb])) rfl,
      hsingle (XTree.node "b_object_zones_and_territories" bozAttrs bozText pre) rfl]
    have hflat : ∀ boz : XTree,
        ([boz].flatMap (fun e => childrenNamed e nm)) = childrenNamed boz nm := by
      intro boz
      simp
    rw [hflat, hflat, hfil nm hnm]
  have hct : ∀ (nm : String) (tail : List String), tb.tag ≠ nm →
      chainTexts (XTree.node rtag rattrs rtext
          [XTree.node "b_object_zones_and_territories" bozAttrs bozText (pre ++ [tb])])
        ("b_object_zones_and_territories" :: nm :: tail) =
      chainTexts (XTree.node rtag rattrs rtext
          [XTree.node "b_object_zones_and_territories" bozAttrs bozText pre])
        ("b_object_zones_and_territories" :: nm :: tail) := by
    intro nm tail hnm
    unfold chainTexts
    rw [hchain nm tail hnm]
  have hname : first_text chainTexts
      (XTree.node rtag rattrs rtext
        [XTree.node "b_object_zones_and_territories" bozAttrs bozText (pre ++ [tb])])
      [["b_object_zones_and_territories", "b_object", "zone_name"],
       ["b_object_zones_and_territories", "b_object", "name"]] =
      first_text chainTexts
      (XTree.node rtag rattrs rtext
        [XTree.node "b_object_zones_and_territories" bozAttrs bozText pre])
      [["b_object_zones_and_territories", "b_object", "zone_name"],
       ["b_object_zones_and_territories", "b_object", "name"]] := by
    apply first_text_congr
    intro xp hxp
    simp only [List.mem_cons, List.not_mem_nil, or_false] at hxp
    rcases hxp with rfl | rfl
    · exact hct "b_object" ["zone_name"] h1
    · exact hct "b_object" ["name"] h1
  have hcode : first_text chainTexts
      (XTree.node rtag rattrs rtext
        [XTree.node "b_object_zones_and_territories" bozAttrs bozText (pre ++ [tb])])
      [["b_object_zones_and_territories", "b_object", "zone_code"],
       ["b_object_zones_and_territories", "b_object", "code"]] =
      first_text chainTexts
      (XTree.node rtag rattrs rtext
        [XTree.node "b_object_zones_and_territories" bozAttrs bozText pre])
      [["b_object_zones_and_territories", "b_object", "zone_code"],
       ["b_object_zones_and_territories", "b_object", "code"]] := by
    apply first_text_congr
    intro xp hxp
    simp only [List.mem_cons, List.not_mem_nil, or_false] at hxp
    rcases hxp with rfl | rfl
    · exact hct "b_object" ["zone_code"] h1
    · exact hct "b_object" ["code"] h1
  unfold parseZTRecord
  rw [hname, hcode, hchain "b_boundaries" ["b_contours_location"] h2]

/-- Witness for C7 amended: appending a `type_boundary` element with
non-territorial text to a concrete record leaves the parsed zone unchanged. -/
theorem claim_c7_witness :
    parseZTRecord (XTree.node "zones_and_territories_record" [] ""
      [XTree.node "b_object_zones_and_territories" [] ""
        ([XTree.node "b_object" [] "" [XTree.node "zone_name" [] "Ж-1" []],
          XTree.node "b_boundaries" [] ""
            [XTree.node "b_contours_location" [] ""
              [XTree.node "entity_spatial" [] ""
                [XTree.node "spatials_elements" [] ""
                  [XTree.node "spatial_element" [] ""
                    [XTree.node "ordinates" [] ""
                      [c7ordinate "0" "0", c7ordinate "2" "0",
                       c7ordinate "2" "2", c7ordinate "0" "2"]]]]]]] ++
         [XTree.node "type_boundary" [] "" [XTree.node "value" [] "Береговая линия" []]])]) =
    parseZTRecord (XTree.node "zones_and_territories_record" [] ""
      [XTree.node "b_object_zones_and_territories" [] ""
        [XTree.node "b_object" [] "" [XTree.node "zone_name" [] "Ж-1" []],
         XTree.node "b_boundaries" [] ""
           [XTree.node "b_contours_location" [] ""
             [XTree.node "entity_spatial" [] ""
               [XTree.node "spatials_elements" [] ""
                 [XTree.node "spatial_element" [] ""
                   [XTree.node "ordinates" [] ""
                     [c7ordinate "0" "0", c7ordinate "2" "0",
                      c7ordinate "2" "2", c7ordinate "0" "2"]]]]]]]]) :=
  claim_c7_amended "zones_and_territories_record" [] "" [] ""
    [XTree.node "b_object" [] "" [XTree.node "zone_name" [] "Ж-1" []],
     XTree.node "b_boundaries" [] ""
       [XTree.node "b_contours_location" [] ""
         [XTree.node "entity_spatial" [] ""
           [XTree.node "spatials_elements" [] ""
             [XTree.node "spatial_element" [] ""
               [XTree.node "ordinates" [] ""
                 [c7ordinate "0" "0", c7ordinate "2" "0",
                  c7ordinate "2" "2", c7ordinate "0" "2"]]]]]]]
    (XTree.node "type_boundary" [] "" [XTree.node "value" [] "Береговая линия" []])
    (by decide) (by decide)

/-! ## Contour degeneracy (C8) -/

/-- C8 counterexample: the alternating contour `(0,0),(1,1),(0,0),(1,1)` has
only two distinct points.  The KPT extractor keeps it (adjacent-duplicate
removal leaves all four points, closure makes five, passing the `≥ 4` gate),
so it reaches the Resolver; and `_make_polygon`'s only explicit gate is the
raw list length, so on a kernel honouring the shapely contract (zero-buffer
repair yields a valid — here empty — shape) construction returns a polygon
rather than rejecting. -/
theorem claim_c8_counterexample :
    extract_polygons_under (XTree.node "b_contours_location" [] ""
      [XTree.node "entity_spatial" [] ""
        [XTree.node "spatials_elements" [] ""
          [XTree.node "spatial_element" [] ""
            [XTree.node "ordinates" [] ""
              [c7ordinate "0" "0", c7ordinate "1" "1",
               c7ordinate "0" "0", c7ordinate "1" "1"]]]]]) =
      [[(0, 0), (1, 1), (0, 0), (1, 1), (0, 0)]] ∧
    ([((0 : ℚ), (0 : ℚ)), (1, 1), (0, 0), (1, 1), (0, 0)] : List Pt).dedup.length = 2 ∧
    make_polygon K8 [(0, 0), (1, 1), (0, 0), (1, 1)] = some [] := by
  refine ⟨rfl, by decide, by decide⟩

/-- C8 amended: a contour with at least 3 distinct points passes the length
gate and construction succeeds whenever the (possibly repaired) polygon is
valid — which the shapely contract guarantees for `buffer(0)` output; but
rejection is by raw list length (fewer than 3 listed points), not by
distinct-point count, so a contour with fewer than 3 distinct points is not
always rejected. -/
theorem claim_c8_amended :
    (∀ {S : Type} (G : GeomKernel S), (∀ s, G.isValid (G.buffer0 s) = true) →
        ∀ cont : List Pt, 3 ≤ cont.dedup.length →
          ∃ p, make_polygon G cont = some p) ∧
    (∀ {S : Type} (G : GeomKernel S) (cont : List Pt), cont.length < 3 →
        make_polygon G cont = none) := by
  constructor
  · intro S G hrep cont hd
    have hlen : ¬cont.length < 3 :=
      not_lt.mpr (le_trans hd (List.Sublist.length_le cont.dedup_sublist))
    simp only [make_polygon, if_neg hlen]
    by_cases hv : G.isValid (G.mkPolygon cont) = true
    · simp [hv]
    · simp only [Bool.not_eq_true] at hv
      simp [hv, hrep]
  · intro S G cont h
    simp [make_polygon, h]

/-- Witness for C8 amended: a triangle with 3 distinct points builds on the
`K8` kernel (whose repair always yields a valid shape), and a two-point list
is rejected. -/
theorem claim_c8_witness :
    (∃ p, make_polygon K8 [(0, 0), (1, 0), (0, 1)] = some p) ∧
    make_polygon K8 [(0, 0), (1, 0)] = none :=
  ⟨claim_c8_amended.1 K8 K8_repair_valid [(0, 0), (1, 0), (0, 1)] (by decide),
   claim_c8_amended.2 K8 [(0, 0), (1, 0)] (by decide)⟩
